import Mathlib

/-!
# Background portal (src/background.c): permission lookup, request worker, monitor

A shallow embedding of `src/background.c`.  Calls to collaborators (permission
store, access dialog, background backend, process signals) are recorded in a
call log carried by the `World`; their replies are inputs of the functions that
issue them.
-/

namespace Background

/-! ## Values exchanged over the bus -/

/-- The GVariant values this file reads or builds. -/
inductive GVariant where
  | string (s : String)
  | boolean (b : Bool)
  | strv (l : List String)
  | uint32 (n : Nat)
  deriving DecidableEq, Repr

/-- A dictionary of type a{sv}. -/
abbrev VarDict := List (String × GVariant)

/-- A dictionary of type a{sas}: what the permission store returns for one
(table, id) pair. -/
abbrev Perms := List (String × List String)

/-- `g_variant_lookup_value (dict, key, NULL)`: the first entry under `key`. -/
def g_variant_lookup_value (d : VarDict) (key : String) : Option GVariant :=
  d.lookup key

/-- `g_variant_lookup (dict, key, "&s", &out)`. -/
def g_variant_lookup_string (d : VarDict) (key : String) : Option String :=
  match g_variant_lookup_value d key with
  | some (.string s) => some s
  | _ => none

/-- `g_variant_lookup (dict, key, "b", &out)`. -/
def g_variant_lookup_boolean (d : VarDict) (key : String) : Option Bool :=
  match g_variant_lookup_value d key with
  | some (.boolean b) => some b
  | _ => none

/-- `g_variant_lookup (dict, key, "^a&s", &out)` on an a{sv} dictionary. -/
def g_variant_lookup_strv (d : VarDict) (key : String) : Option (List String) :=
  match g_variant_lookup_value d key with
  | some (.strv l) => some l
  | _ => none

/-- `g_variant_lookup (dict, key, "u", &out)`. -/
def g_variant_lookup_uint32 (d : VarDict) (key : String) : Option Nat :=
  match g_variant_lookup_value d key with
  | some (.uint32 n) => some n
  | _ => none

/-- `g_variant_lookup (perms, app_id, "^a&s", &permissions)` on the a{sas}
dictionary of stored permissions. -/
def g_variant_lookup (perms : Perms) (app_id : String) : Option (List String) :=
  perms.lookup app_id

/-! ## Permissions (lines 36-174) -/

def PERMISSION_TABLE : String := "background"

def PERMISSION_ID : String := "background"

/-- `typedef enum { UNSET, NO, YES, ASK } Permission;` -/
inductive Permission where
  | UNSET
  | NO
  | YES
  | ASK
  deriving DecidableEq, Repr

/-- `typedef enum { BACKGROUND, RUNNING, ACTIVE } AppState;` kept as the
integer the code casts from and to (`get_app_states` stores whatever uint32
the backend sent). -/
abbrev AppState := Nat

def BACKGROUND : AppState := 0

def RUNNING : AppState := 1

def ACTIVE : AppState := 2

/-- Status codes of `xdp_request_emit_response`. -/
inductive XdgDesktopPortalResponse where
  | SUCCESS
  | CANCELLED
  | OTHER
  deriving DecidableEq, Repr

/-- The calls this file makes to its collaborators. -/
inductive Event where
  | permission_store_lookup (table id : String)
  | permission_store_set_permission (table : String) (create : Bool) (id app : String)
      (permissions : List String)
  | access_dialog (handle app_id parent_window title subtitle body : String)
      (options : VarDict)
  | enable_autostart (app_id : String) (enable : Bool) (commandline : List String)
      (flags : Nat)
  | emit_response (request_id : String) (response : XdgDesktopPortalResponse)
      (results : VarDict)
  | request_unexport (request_id : String)
  | get_app_state
  | notify_background (handle app_id name : String)
  | close_notification (handle : String)
  | kill (pid : Nat)
  deriving DecidableEq, Repr

def Event.is_access_dialog : Event → Bool
  | .access_dialog _ _ _ _ _ _ _ => true
  | _ => false

def Event.is_store_lookup : Event → Bool
  | .permission_store_lookup _ _ => true
  | _ => false

def Event.is_store_set : Event → Bool
  | .permission_store_set_permission _ _ _ _ _ => true
  | _ => false

def Event.is_enable_autostart : Event → Bool
  | .enable_autostart _ _ _ _ => true
  | _ => false

def Event.is_emit_response : Event → Bool
  | .emit_response _ _ _ => true
  | _ => false

def Event.is_notify_background : Event → Bool
  | .notify_background _ _ _ => true
  | _ => false

def Event.is_kill : Event → Bool
  | .kill _ => true
  | _ => false

def Event.is_close_notification : Event → Bool
  | .close_notification _ => true
  | _ => false

/-- Modelled from the spec: the permission store is a collaborator outside
this file, a map from application id to string array kept under the fixed
(table, id) pair "background"/"background".  `none` is a store with no entry
for that pair yet, for which the lookup call fails. -/
abbrev Store := Option Perms

/-- Modelled from the spec: the store side of `SetPermission` with
`create = TRUE`: the entry of `app_id` becomes `permissions`, the entries of
the other applications stay. -/
def Store.set_permission (st : Store) (app_id : String) (permissions : List String) :
    Store :=
  some ((app_id, permissions) :: (st.getD []).filter (fun e => e.1 != app_id))

/-- `FlatpakInstance`, as far as this file reads it. -/
structure FlatpakInstance where
  id : String
  app : String
  child_pid : Nat
  is_running : Bool
  /-- display name of the desktop entry `<app>.desktop`, when there is one -/
  desktop_display_name : Option String
  deriving DecidableEq, Repr

/-- `InstanceData` (lines 430-437). -/
structure InstanceData where
  flatpak_instance : FlatpakInstance
  stamp : Nat
  state : AppState
  handle : Option String
  notified : Bool
  permission : Permission
  deriving DecidableEq, Repr

/-- `DoneData` (lines 522-526). -/
structure DoneData where
  app_id : String
  id : String
  perm : Permission
  deriving DecidableEq, Repr

/-- The state the functions of this file act on: the permission store, the
`applications` table (instance id to `InstanceData`), the static counters
`stamp` (of `check_background_apps`) and `count` (of `send_notification`), the
`notify_background` calls still in flight, and the log of calls made so far. -/
structure World where
  store : Store
  applications : List (String × InstanceData)
  stamp : Nat
  count : Nat
  pending : List DoneData
  log : List Event
  deriving DecidableEq, Repr

/-- Record one call in the log. -/
def World.call (w : World) (e : Event) : World :=
  { w with log := w.log ++ [e] }

/-- The calls made between two states of the same run. -/
def calls_after (before after : World) : List Event :=
  after.log.drop before.log.length

/-- `get_all_permissions` (lines 65-86).  `reply_ok = false` is a failure of
the bus call itself. -/
def get_all_permissions (reply_ok : Bool) (w : World) : Option Perms × World :=
  let w1 := w.call (.permission_store_lookup PERMISSION_TABLE PERMISSION_ID)
  if reply_ok then
    match w1.store with
    | some out_perms => (some out_perms, w1)
    | none => (none, w1)
  else (none, w1)

/-- `get_one_permission` (lines 88-128). -/
def get_one_permission (app_id : String) (perms : Option Perms) : Permission :=
  match perms with
  | none => .UNSET
  | some perms =>
    match g_variant_lookup perms app_id with
    | none => .UNSET
    | some permissions =>
      if permissions.length ≠ 1 then .UNSET
      else if permissions[0]? = some "yes" then .YES
      else if permissions[0]? = some "no" then .NO
      else if permissions[0]? = some "ask" then .ASK
      else .UNSET

/-- `get_permission` (lines 130-140). -/
def get_permission (reply_ok : Bool) (app_id : String) (w : World) : Permission × World :=
  let r := get_all_permissions reply_ok w
  match r.1 with
  | some perms => (get_one_permission app_id (some perms), r.2)
  | none => (.UNSET, r.2)

/-- `set_permission` (lines 142-174).  `reply_ok = false` is a failure of the
store call, after which the store is as before. -/
def set_permission (reply_ok : Bool) (app_id : String) (permission : Permission)
    (w : World) : World :=
  let permissions0 : Option String :=
    if permission = .ASK then some "ask"
    else if permission = .YES then some "yes"
    else if permission = .NO then some "no"
    else none
  match permissions0 with
  | none => w
  | some p =>
    let w1 := w.call (.permission_store_set_permission PERMISSION_TABLE true PERMISSION_ID
      app_id [p])
    if reply_ok then { w1 with store := w1.store.set_permission app_id [p] } else w1

/-! ## The RequestBackground worker (lines 176-302) -/

def AUTOSTART_FLAGS_NONE : Nat := 0

def AUTOSTART_FLAGS_ACTIVATABLE : Nat := 1 <<< 0

/-- `XdpAppInfo`, as far as this file reads it. -/
structure XdpAppInfo where
  id : String
  is_host : Bool
  /-- display name of the GAppInfo that `xdp_app_info_load_app_info` returns,
  when it returns one -/
  display_name : Option String
  deriving DecidableEq, Repr

/-- `Request`, as far as this file reads it: the object data "window" and
"options" are fields. -/
structure Request where
  id : String
  app_info : XdpAppInfo
  window : Option String
  options : VarDict
  exported : Bool
  deriving DecidableEq, Repr

/-- `request_unexport`. -/
def request_unexport (request : Request) (w : World) : Request × World :=
  ({ request with exported := false }, w.call (.request_unexport request.id))

/-- What the collaborators answer to one run of the worker.  `none` is a
failed call; a failed call leaves its out-parameters as they were, so
`autostart_enabled_uninit` is the value the uninitialised local
`autostart_enabled` happens to hold.  `rewrite_commandline` stands for
`xdp_app_info_rewrite_commandline`. -/
structure WorkerEnv where
  lookup_ok : Bool
  set_ok : Bool
  dialog_reply : Option Nat
  autostart_reply : Option Bool
  autostart_enabled_uninit : Bool
  rewrite_commandline : XdpAppInfo → Option (List String) → List String

/-- What one run of the worker leaves behind: the local `allowed`, the
request and the world. -/
structure WorkerResult where
  allowed : Bool
  autostart_enabled : Bool
  request : Request
  world : World

/-- `handle_request_background_in_thread_func` (lines 181-302).  The request
lock is held for the whole body, so `request.exported` is the same at line 290
as on entry. -/
def handle_request_background_in_thread_func (env : WorkerEnv) (request : Request)
    (w : World) : WorkerResult :=
  let options := request.options
  let reason := g_variant_lookup_string options "reason"
  let autostart_requested := (g_variant_lookup_boolean options "autostart").getD false
  let autostart_exec := g_variant_lookup_strv options "commandline"
  let activatable := (g_variant_lookup_boolean options "dbus-activatable").getD false
  let autostart_flags :=
    if activatable then AUTOSTART_FLAGS_NONE ||| AUTOSTART_FLAGS_ACTIVATABLE
    else AUTOSTART_FLAGS_NONE
  let app_id := request.app_info.id
  let pw : Permission × World :=
    if request.app_info.is_host then (.YES, w)
    else get_permission env.lookup_ok app_id w
  let permission := pw.1
  let aw : Bool × World :=
    if permission = .ASK ∨ permission = .UNSET then
      let info := request.app_info.display_name
      let title := "Allow " ++ info.getD app_id ++ " to run in the background?"
      let subtitle :=
        match reason with
        | some r => r
        | none =>
          if autostart_requested then
            info.getD app_id ++
              " requests to be started automatically and run in the background."
          else info.getD app_id ++ " requests to run in the background."
      let body := "The \u2018run in background\u2019 permission can be changed at any " ++
        "time from the application settings."
      let opts : VarDict :=
        [("deny_label", .string "Don\x27t allow"), ("grant_label", .string "Allow")]
      let w1 := pw.2.call (.access_dialog request.id app_id "" title subtitle body opts)
      let response : Nat :=
        match env.dialog_reply with
        | some r => r
        | none => 2
      let allowed := response == 0
      if permission = .UNSET then
        (allowed, set_permission env.set_ok app_id (if allowed then .YES else .NO) w1)
      else (allowed, w1)
    else (if permission = .YES then true else false, pw.2)
  let allowed := aw.1
  let commandline := env.rewrite_commandline request.app_info autostart_exec
  let w2 := aw.2.call
    (.enable_autostart app_id (allowed && autostart_requested) commandline autostart_flags)
  let autostart_enabled :=
    match env.autostart_reply with
    | some b => b
    | none => env.autostart_enabled_uninit
  if request.exported then
    let results : VarDict :=
      [("background", .boolean allowed), ("autostart", .boolean autostart_enabled)]
    let w3 := w2.call (.emit_response request.id
      (if allowed then .SUCCESS else .CANCELLED) results)
    let rw := request_unexport request w3
    { allowed := allowed, autostart_enabled := autostart_enabled,
      request := rw.1, world := rw.2 }
  else
    { allowed := allowed, autostart_enabled := autostart_enabled,
      request := request, world := w2 }

/-! ## Intake (lines 304-375) -/

/-- The errors this file sets or passes on: the portal error domain with the
code INVALID_ARGUMENT, or an error of some other origin. -/
inductive GError where
  | XDG_DESKTOP_PORTAL_ERROR_INVALID_ARGUMENT (message : String)
  | other (message : String)
  deriving DecidableEq, Repr

/-- `g_variant_get_string (value, NULL)`; a value of another type has no
string. -/
def g_variant_get_string (value : GVariant) : String :=
  match value with
  | .string s => s
  | _ => ""

/-- `g_utf8_strlen (p, -1)` on the valid UTF-8 text of a GVariant string: the
number of characters (codepoints), not of bytes. -/
def g_utf8_strlen (p : String) : Nat :=
  p.length

/-- `validate_reason` (lines 304-320): `.ok ()` is TRUE, `.error e` is FALSE
with `*error` set to `e`. -/
def validate_reason (_key : String) (value : GVariant) (_options : VarDict) :
    Except GError Unit :=
  let string := g_variant_get_string value
  if g_utf8_strlen string > 256 then
    .error (.XDG_DESKTOP_PORTAL_ERROR_INVALID_ARGUMENT "Not accepting overly long reasons")
  else .ok ()

inductive GVariantType where
  | STRING
  | BOOLEAN
  | STRING_ARRAY
  deriving DecidableEq, Repr

/-- `XdpOptionKey`: key, type, validation callback. -/
structure XdpOptionKey where
  key : String
  type : GVariantType
  validate : Option (String → GVariant → VarDict → Except GError Unit)

/-- `background_options` (lines 322-327). -/
def background_options : List XdpOptionKey :=
  [ { key := "reason", type := .STRING, validate := some validate_reason },
    { key := "autostart", type := .BOOLEAN, validate := none },
    { key := "commandline", type := .STRING_ARRAY, validate := none },
    { key := "dbus-activatable", type := .BOOLEAN, validate := none } ]

/-- What the method invocation is answered with. -/
inductive MethodReply where
  | complete_request_background (handle : String)
  | return_gerror (e : GError)
  deriving DecidableEq, Repr

/-- What `handle_request_background` leaves behind: the reply sent on the
invocation, the request, and whether a task running
`handle_request_background_in_thread_func` was started. -/
structure IntakeResult where
  reply : MethodReply
  request : Request
  worker_started : Bool
  deriving DecidableEq, Repr

/-- `handle_request_background` (lines 329-375).  `xdp_filter_options` is not
in this file: it is a parameter, given the options and the table of supported
keys and returning the filtered dictionary and its gboolean; the call passes
NULL for its error and does not read the gboolean.  `impl_request` is the
outcome of `xdp_impl_request_proxy_new_sync`. -/
def handle_request_background
    (xdp_filter_options : VarDict → List XdpOptionKey → VarDict × Bool)
    (impl_request : Except GError Unit) (request : Request) (arg_window : String)
    (arg_options : VarDict) : IntakeResult :=
  let options := (xdp_filter_options arg_options background_options).1
  let request1 := { request with window := some arg_window, options := options }
  match impl_request with
  | .error error =>
    { reply := .return_gerror error, request := request1, worker_started := false }
  | .ok _ =>
    let request2 := { request1 with exported := true }
    { reply := .complete_request_background request2.id, request := request2,
      worker_started := true }

/-! ## The background monitor (lines 394-733) -/

/-- `g_hash_table_lookup`. -/
def g_hash_table_lookup {α : Type} (table : List (String × α)) (key : String) : Option α :=
  table.lookup key

/-- `g_hash_table_insert`: the value under an existing key is replaced, a new
key is added. -/
def g_hash_table_insert {α : Type} (table : List (String × α)) (key : String) (value : α) :
    List (String × α) :=
  if table.any (fun e => e.1 == key) then
    table.map (fun e => if e.1 == key then (e.1, value) else e)
  else table ++ [(key, value)]

/-- `g_variant_get_uint32 (value)`; a value of another type gives 0. -/
def g_variant_get_uint32 (value : GVariant) : Nat :=
  match value with
  | .uint32 n => n
  | _ => 0

/-- `get_app_states` (lines 398-421).  `reply = none` is a failed GetAppState
call; otherwise every entry of the reply is inserted in turn. -/
def get_app_states (reply : Option VarDict) (w : World) :
    Option (List (String × AppState)) × World :=
  let w1 := w.call .get_app_state
  match reply with
  | none => (none, w1)
  | some apps =>
    (some (apps.foldl (fun t e => g_hash_table_insert t e.1 (g_variant_get_uint32 e.2)) []),
      w1)

/-- `get_one_app_state` (lines 423-428): the integer stored under `app_id`,
the null pointer read as an integer (0) when there is none. -/
def get_one_app_state (app_id : String) (app_states : List (String × AppState)) : AppState :=
  match g_hash_table_lookup app_states app_id with
  | some state => state
  | none => 0

/-- `g_dbus_proxy_get_connection (G_DBUS_PROXY (background))` of line 458:
`background` is the object created at line 779, an interface skeleton and not
a proxy, so the type check of the getter fails and it returns NULL. -/
def background_proxy_connection : Option Unit := none

/-- `close_notification` (lines 455-468): `g_dbus_connection_call` on the
connection of line 458; given NULL it returns at its own check and no Close
call is sent. -/
def close_notification (handle : String) (w : World) : World :=
  match background_proxy_connection with
  | some _ => w.call (.close_notification handle)
  | none => w

/-- `remove_outdated_instances` (lines 470-487): the table is walked in its
own order; for an entry with an older stamp `close_notification` is called,
when it has a handle, and the entry is removed. -/
def remove_outdated_instances (stamp : Nat) (w : World) : World :=
  let w1 := w.applications.foldl
    (fun acc e =>
      if e.2.stamp < stamp then
        match e.2.handle with
        | some handle => close_notification handle acc
        | none => acc
      else acc) w
  { w1 with applications := w.applications.filter (fun e => !decide (e.2.stamp < stamp)) }

/-- `flatpak_instance_get_display_name` (lines 489-506). -/
def flatpak_instance_get_display_name (i : FlatpakInstance) : String :=
  let app_id := i.app
  if app_id ≠ "" then
    match i.desktop_display_name with
    | some name => name
    | none => app_id
  else app_id

/-- `kill_instance` (lines 508-520). -/
def kill_instance (id : String) (w : World) : World :=
  match g_hash_table_lookup w.applications id with
  | some idata => w.call (.kill idata.flatpak_instance.child_pid)
  | none => w

def FORBID : Nat := 0

def ALLOW : Nat := 1

/-- `notify_background_done` (lines 543-597) for the call that carried
`ddata`.  `finish_reply = none` is a failed call; `result_uninit` is the value
the uninitialised local `result` holds when the reply has no "result". -/
def notify_background_done (ddata : DoneData) (finish_reply : Option VarDict)
    (result_uninit : Nat) (set_ok : Bool) (w : World) : World :=
  match finish_reply with
  | none => w
  | some results =>
    let result :=
      match g_variant_lookup_uint32 results "result" with
      | some r => r
      | none => result_uninit
    let pw : Permission × World :=
      if result = ALLOW then
        (if ddata.perm ≠ .ASK then .YES else ddata.perm, w)
      else if result = FORBID then
        (if ddata.perm ≠ .ASK then .NO else ddata.perm, kill_instance ddata.id w)
      else (ddata.perm, w)
    let w1 := set_permission set_ok ddata.app_id pw.1 pw.2
    match g_hash_table_lookup w1.applications ddata.id with
    | some idata =>
      let idata1 : InstanceData := { idata with handle := none, permission := pw.1 }
      { w1 with applications := g_hash_table_insert w1.applications ddata.id idata1 }
    | none => w1

/-- `send_notification` (lines 599-628) on the record `idata`, which the
caller writes back.  `.error` is the process aborted by the failed
`g_assert (idata->handle == NULL)`, in the state reached by then. -/
def send_notification (idata : InstanceData) (w : World) :
    Except World (InstanceData × World) :=
  let i := idata.flatpak_instance
  let name := flatpak_instance_get_display_name i
  let ddata : DoneData := { app_id := i.app, id := i.id, perm := idata.permission }
  let handle := "/org/freedesktop/portal/desktop/notify/background" ++ toString w.count
  let w1 := { w with count := w.count + 1 }
  let w2 := World.call { w1 with pending := w1.pending ++ [ddata] }
    (.notify_background handle ddata.app_id name)
  if idata.handle ≠ none then .error w2
  else .ok ({ idata with handle := some handle, notified := true }, w2)

/-- The zero-filled record of `g_new0 (InstanceData, 1)` with its instance
set (lines 670-671). -/
def InstanceData.new0 (i : FlatpakInstance) : InstanceData :=
  { flatpak_instance := i, stamp := 0, state := 0, handle := none, notified := false,
    permission := .UNSET }

/-- One turn of the loop of `check_background_apps` (lines 650-714). -/
def check_background_apps_body (stamp : Nat) (app_states : List (String × AppState))
    (perms : Option Perms) (w : World) (i : FlatpakInstance) : Except World World :=
  if !i.is_running then .ok w
  else
    let id := i.id
    let app_id := i.app
    let found := g_hash_table_lookup w.applications id
    let is_new := found.isNone
    let idata0 : InstanceData :=
      match found with
      | some idata => idata
      | none => InstanceData.new0 i
    let idata1 := { idata0 with stamp := stamp, state := get_one_app_state app_id app_states }
    let permission := get_one_permission app_id perms
    let idata2 :=
      if idata1.permission ≠ permission then
        { idata1 with permission := permission, notified := false }
      else idata1
    let w1 := { w with applications := g_hash_table_insert w.applications id idata2 }
    if idata2.state ≠ BACKGROUND || idata2.notified || is_new then .ok w1
    else
      match idata2.permission with
      | .NO =>
        let w2 := kill_instance id w1
        let idata3 : InstanceData := { idata2 with stamp := 0 }
        .ok { w2 with applications := g_hash_table_insert w2.applications id idata3 }
      | .ASK | .UNSET =>
        match send_notification idata2 w1 with
        | .error w2 => .error w2
        | .ok (idata3, w2) =>
          .ok { w2 with applications := g_hash_table_insert w2.applications id idata3 }
      | .YES => .ok w1

/-- The loop of `check_background_apps` over the instances; it stops where the
process is aborted. -/
def check_background_apps_loop (stamp : Nat) (app_states : List (String × AppState))
    (perms : Option Perms) : World → List FlatpakInstance → Except World World
  | w, [] => .ok w
  | w, i :: rest =>
    match check_background_apps_body stamp app_states perms w i with
    | .error w1 => .error w1
    | .ok w1 => check_background_apps_loop stamp app_states perms w1 rest

/-- What the collaborators answer to one monitor cycle: the GetAppState reply
(`none` for a failed call), whether the permission lookup call succeeds, and
the instances `flatpak_instance_get_all` returns. -/
structure CycleEnv where
  app_state_reply : Option VarDict
  lookup_ok : Bool
  instances : List FlatpakInstance
  deriving DecidableEq, Repr

/-- `check_background_apps` (lines 630-717). -/
def check_background_apps (env : CycleEnv) (w : World) : Except World World :=
  let r := get_app_states env.app_state_reply w
  match r.1 with
  | none => .ok r.2
  | some app_states =>
    let pr := get_all_permissions env.lookup_ok r.2
    let perms := pr.1
    let instances := env.instances
    let w1 := { pr.2 with stamp := pr.2.stamp + 1 }
    match check_background_apps_loop w1.stamp app_states perms w1 instances with
    | .error w2 => .error w2
    | .ok w2 => .ok (remove_outdated_instances w2.stamp w2)

/-- The state in which `background_monitor` starts: an empty `applications`
table, the static counters at zero, over some permission store. -/
def World.start (store : Store) : World :=
  { store := store, applications := [], stamp := 0, count := 0, pending := [], log := [] }

/-- What can happen next to the monitor: a cycle of the loop of
`background_monitor`, the completion of the `k`-th notification call in
flight, or another client of the permission store changing its contents. -/
inductive Action where
  | cycle (env : CycleEnv)
  | done (k : Nat) (finish_reply : Option VarDict) (result_uninit : Nat) (set_ok : Bool)
  | store_changed (store : Store)
  deriving DecidableEq, Repr

/-- One action on the world; `.error` is the aborted process. -/
def step (w : World) : Action → Except World World
  | .cycle env => check_background_apps env w
  | .done k finish_reply result_uninit set_ok =>
    match w.pending[k]? with
    | some ddata =>
      .ok (notify_background_done ddata finish_reply result_uninit set_ok
        { w with pending := w.pending.eraseIdx k })
    | none => .ok w
  | .store_changed store => .ok { w with store := store }

/-- A sequence of actions, stopping where the process is aborted. -/
def run : World → List Action → Except World World
  | w, [] => .ok w
  | w, a :: rest =>
    match step w a with
    | .error w1 => .error w1
    | .ok w1 => run w1 rest

/-! ## The parts of a monitor cycle -/

/-- The table of application states a cycle works with (line 639); `none`
when the GetAppState call fails and the cycle is skipped. -/
def cycle_app_states (env : CycleEnv) (w : World) : Option (List (String × AppState)) :=
  (get_app_states env.app_state_reply w).1

/-- The stored permissions a cycle that is not skipped reads (line 645). -/
def cycle_perms (env : CycleEnv) (w : World) : Option Perms :=
  (get_all_permissions env.lookup_ok (get_app_states env.app_state_reply w).2).1

/-- The world in which the loop of a cycle that is not skipped starts (after
line 648): both calls made, the stamp advanced. -/
def cycle_start (env : CycleEnv) (w : World) : World :=
  let pr := get_all_permissions env.lookup_ok (get_app_states env.app_state_reply w).2
  { pr.2 with stamp := pr.2.stamp + 1 }

/-- In the cycle `check_background_apps env w` the loop, having gone through
the instances `pre`, comes to the instance `i` in the world `w1` and leaves it
in the world `w2`. -/
def cycle_turn (env : CycleEnv) (w : World) (pre : List FlatpakInstance)
    (i : FlatpakInstance) (w1 w2 : World) : Prop :=
  ∃ app_states post,
    cycle_app_states env w = some app_states ∧ env.instances = pre ++ i :: post ∧
    check_background_apps_loop (cycle_start env w).stamp app_states (cycle_perms env w)
      (cycle_start env w) pre = .ok w1 ∧
    check_background_apps_body (cycle_start env w).stamp app_states (cycle_perms env w)
      w1 i = .ok w2

/-- The cycle kills the instance `i`: the turn of `i` makes a kill call. -/
def killed_in_cycle (env : CycleEnv) (w : World) (i : FlatpakInstance) : Prop :=
  ∃ pre w1 w2, cycle_turn env w pre i w1 w2 ∧ ∃ e ∈ calls_after w1 w2, e.is_kill = true

/-- The world a run ends in, aborted or not. -/
def outcome (r : Except World World) : World :=
  match r with
  | .ok w => w
  | .error w => w

/-- The worlds the monitor can be in: those a sequence of actions leads to
from its start. -/
def reachable (w : World) : Prop :=
  ∃ store actions, run (World.start store) actions = .ok w

/-- What holds of the `applications` table in every reachable world: one
entry per key, and no stamp beyond the stamp of the last cycle. -/
def World.wf (w : World) : Prop :=
  (w.applications.map (fun e => e.1)).Nodup ∧ ∀ e ∈ w.applications, e.2.stamp ≤ w.stamp

/-- The record after lines 675-687 of a turn: stamped, its state set, and the
permission adopted, with the notified flag cleared, when it differs. -/
def InstanceData.update (stamp : Nat) (state : AppState) (permission : Permission)
    (idata : InstanceData) : InstanceData :=
  let idata1 := { idata with stamp := stamp, state := state }
  if idata1.permission ≠ permission then
    { idata1 with permission := permission, notified := false }
  else idata1

/-! ## Sample inputs -/

/-- A sandboxed application. -/
def sample_app_info : XdpAppInfo :=
  { id := "org.example.App", is_host := false, display_name := some "Example" }

/-- A request of that application, still exported, asking for autostart. -/
def sample_request : Request :=
  { id := "/org/freedesktop/portal/desktop/request/1_42/t", app_info := sample_app_info,
    window := some "", options := [("reason", .string "sync files"), ("autostart", .boolean true)],
    exported := true }

/-- The same request made by the host. -/
def sample_host_request : Request :=
  { sample_request with app_info := { sample_app_info with is_host := true } }

/-- Collaborators that all answer: the dialog grants, autostart is reported
enabled. -/
def sample_env : WorkerEnv :=
  { lookup_ok := true, set_ok := true, dialog_reply := some 0, autostart_reply := some true,
    autostart_enabled_uninit := false, rewrite_commandline := fun _ c => c.getD [] }

/-- The same collaborators with a failing access dialog. -/
def sample_env_dialog_fails : WorkerEnv :=
  { sample_env with dialog_reply := none }

/-- A world whose store holds the given entry for the sample application. -/
def sample_world (permissions : List String) : World :=
  World.start (some [("org.example.App", permissions)])

/-- A running instance of the sample application. -/
def sample_instance : FlatpakInstance :=
  { id := "1234", app := "org.example.App", child_pid := 4321, is_running := true,
    desktop_display_name := none }

/-- A monitor cycle that sees the sample instance, its application reported
in state BACKGROUND (0). -/
def sample_cycle : CycleEnv :=
  { app_state_reply := some [("org.example.App", .uint32 0)], lookup_ok := true,
    instances := [sample_instance] }

/-- Whether a run ended in the aborted process. -/
def aborted (r : Except World World) : Bool :=
  match r with
  | .error _ => true
  | .ok _ => false

/-- The completion of the first notification in flight with result FORBID. -/
def sample_done_forbid : Action :=
  .done 0 (some [("result", .uint32 0)]) 0 true

/-- The completion of the first notification in flight with result ALLOW. -/
def sample_done_allow : Action :=
  .done 0 (some [("result", .uint32 1)]) 0 true

/-- A monitor cycle that sees the sample instance, its application reported
in state RUNNING (1). -/
def sample_cycle_running : CycleEnv :=
  { sample_cycle with app_state_reply := some [("org.example.App", .uint32 1)] }

/-- A monitor cycle in which no instance is enumerated. -/
def sample_cycle_empty : CycleEnv :=
  { sample_cycle with instances := [] }

/-- A monitor cycle whose GetAppState call fails. -/
def sample_cycle_failed : CycleEnv :=
  { sample_cycle with app_state_reply := none }

/-- The world after two cycles that saw the sample instance in the background
over an empty store: its record is notified, the notification in flight. -/
def sample_notified_world : World :=
  outcome (run (World.start none) [.cycle sample_cycle, .cycle sample_cycle])

/-- The world after one cycle that saw the sample instance for the first time
over a store holding the given entry for its application. -/
def sample_seen_world (permissions : List String) : World :=
  outcome (run (sample_world permissions) [.cycle sample_cycle])

/-- The record of the sample instance after its first cycle over a store that
says "no". -/
def sample_seen_record_no : InstanceData :=
  { flatpak_instance := sample_instance, stamp := 1, state := 0, handle := none,
    notified := false, permission := .NO }

/-- The record of the sample instance once notified over an empty store. -/
def sample_notified_record : InstanceData :=
  { flatpak_instance := sample_instance, stamp := 2, state := 0,
    handle := some "/org/freedesktop/portal/desktop/notify/background0",
    notified := true, permission := .UNSET }

/-- The data of a notification sent for the sample instance under ASK. -/
def sample_done_data : DoneData :=
  { app_id := "org.example.App", id := "1234", perm := .ASK }

/-- A GetAppState reply that reports no application at all. -/
def sample_no_app_states : VarDict := []

/-! ## Theorems -/

theorem calls_after_of_log {before after : World} {l : List Event}
    (h : after.log = before.log ++ l) : calls_after before after = l := by
  simp [calls_after, h]

theorem get_one_permission_none (app_id : String) :
    get_one_permission app_id none = .UNSET := rfl

theorem get_one_permission_singleton (app_id s : String) (d : Perms)
    (h : g_variant_lookup d app_id = some [s]) :
    get_one_permission app_id (some d) =
      if s = "yes" then .YES else if s = "no" then .NO else if s = "ask" then .ASK
      else .UNSET := by
  simp [get_one_permission, h]

theorem get_one_permission_length (app_id : String) (d : Perms) (l : List String)
    (h : g_variant_lookup d app_id = some l) (hl : l.length ≠ 1) :
    get_one_permission app_id (some d) = .UNSET := by
  simp [get_one_permission, h, hl]

theorem get_one_permission_absent (app_id : String) (d : Perms)
    (h : g_variant_lookup d app_id = none) :
    get_one_permission app_id (some d) = .UNSET := by
  simp [get_one_permission, h]

/-- C1: `get_one_permission` returns YES, NO or ASK exactly when the entry
stored for the application is the one-element array ["yes"], ["no"] or
["ask"] respectively, and UNSET in every other case: no mapping, no entry for
the application, an array whose length is not 1, or one other string. -/
theorem get_one_permission_spec (app_id : String) (perms : Option Perms) :
    (get_one_permission app_id perms = .YES ↔
      ∃ d, perms = some d ∧ g_variant_lookup d app_id = some ["yes"]) ∧
    (get_one_permission app_id perms = .NO ↔
      ∃ d, perms = some d ∧ g_variant_lookup d app_id = some ["no"]) ∧
    (get_one_permission app_id perms = .ASK ↔
      ∃ d, perms = some d ∧ g_variant_lookup d app_id = some ["ask"]) ∧
    (get_one_permission app_id perms = .UNSET ↔
      perms = none ∨
      ∃ d, perms = some d ∧
        (g_variant_lookup d app_id = none ∨
          ∃ l, g_variant_lookup d app_id = some l ∧
            (l.length ≠ 1 ∨ ∃ s, l = [s] ∧ s ≠ "yes" ∧ s ≠ "no" ∧ s ≠ "ask"))) := by
  cases perms with
  | none => simp [get_one_permission_none]
  | some d =>
    cases h : g_variant_lookup d app_id with
    | none => simp [get_one_permission_absent _ _ h, h]
    | some l =>
      match l, h with
      | [], h => simp [get_one_permission_length _ _ _ h, h]
      | _ :: _ :: _, h => simp [get_one_permission_length _ _ _ h, h]
      | [s], h =>
        rw [get_one_permission_singleton _ _ _ h]
        by_cases h1 : s = "yes"
        · subst h1; simp [h]
        · by_cases h2 : s = "no"
          · subst h2; simp [h]
          · by_cases h3 : s = "ask"
            · subst h3; simp [h]
            · simp [h, h1, h2, h3]

theorem lookup_filter_ne (d : Perms) (app_id other : String) (h : other ≠ app_id) :
    List.lookup other (d.filter (fun e => e.1 != app_id)) = List.lookup other d := by
  induction d with
  | nil => rfl
  | cons e rest ih =>
    obtain ⟨k, v⟩ := e
    by_cases hk : k = app_id
    · subst hk
      have hne : (other == k) = false := by simpa using h
      simp [List.filter_cons, List.lookup_cons, hne, ih]
    · by_cases ho : other = k
      · subst ho
        simp [List.filter_cons, List.lookup_cons, hk]
      · have hne : (other == k) = false := by simpa using ho
        simp [List.filter_cons, List.lookup_cons, hk, hne, ih]

theorem store_set_permission_lookup_self (st : Store) (app_id : String) (l : List String) :
    ∃ d, st.set_permission app_id l = some d ∧ g_variant_lookup d app_id = some l := by
  refine ⟨_, rfl, ?_⟩
  simp [g_variant_lookup, List.lookup_cons]

theorem store_set_permission_lookup_other (st : Store) (app_id other : String)
    (l : List String) (h : other ≠ app_id) :
    g_variant_lookup ((st.set_permission app_id l).getD []) other =
      g_variant_lookup (st.getD []) other := by
  have hne : (other == app_id) = false := by simpa using h
  simp [Store.set_permission, g_variant_lookup, List.lookup_cons, hne, lookup_filter_ne _ _ _ h]

/-- The string `set_permission` writes for a permission other than UNSET. -/
theorem set_permission_of_ne_unset (reply_ok : Bool) (app_id : String) (x : Permission)
    (w : World) (hx : x ≠ .UNSET) :
    ∃ p, get_one_permission app_id (some [(app_id, [p])]) = x ∧
      (∀ st : Store, get_one_permission app_id (st.set_permission app_id [p]) = x) ∧
      set_permission reply_ok app_id x w =
        { w with
          log := w.log ++
            [.permission_store_set_permission PERMISSION_TABLE true PERMISSION_ID app_id [p]],
          store := if reply_ok then w.store.set_permission app_id [p] else w.store } := by
  cases x with
  | UNSET => exact absurd rfl hx
  | NO =>
    refine ⟨"no", ?_, ?_, ?_⟩
    · simp [get_one_permission, g_variant_lookup, List.lookup_cons]
    · intro st
      simp [get_one_permission, Store.set_permission, g_variant_lookup, List.lookup_cons]
    · cases reply_ok <;> simp [set_permission, World.call]
  | YES =>
    refine ⟨"yes", ?_, ?_, ?_⟩
    · simp [get_one_permission, g_variant_lookup, List.lookup_cons]
    · intro st
      simp [get_one_permission, Store.set_permission, g_variant_lookup, List.lookup_cons]
    · cases reply_ok <;> simp [set_permission, World.call]
  | ASK =>
    refine ⟨"ask", ?_, ?_, ?_⟩
    · simp [get_one_permission, g_variant_lookup, List.lookup_cons]
    · intro st
      simp [get_one_permission, Store.set_permission, g_variant_lookup, List.lookup_cons]
    · cases reply_ok <;> simp [set_permission, World.call]

theorem get_permission_fst (reply_ok : Bool) (app_id : String) (w : World) :
    (get_permission reply_ok app_id w).1 =
      if reply_ok then get_one_permission app_id w.store else .UNSET := by
  cases reply_ok <;> cases hs : w.store <;>
    simp [get_permission, get_all_permissions, World.call, hs, get_one_permission]

theorem get_permission_snd (reply_ok : Bool) (app_id : String) (w : World) :
    (get_permission reply_ok app_id w).2 =
      w.call (.permission_store_lookup PERMISSION_TABLE PERMISSION_ID) := by
  cases reply_ok <;> cases hs : w.store <;>
    simp [get_permission, get_all_permissions, World.call, hs]

/-- C2: round trip through the permission store.  For X in YES, NO, ASK, when
the store call of `set_permission app X` succeeds, a following
`get_permission app` (whose lookup call succeeds) returns X; the one call made
writes a one-element array on which `get_one_permission` yields X; and the
entry of every other application is as before. -/
theorem set_permission_get_permission (app_id : String) (x : Permission) (w : World)
    (hx : x ≠ .UNSET) :
    (get_permission true app_id (set_permission true app_id x w)).1 = x ∧
    (∃ p, calls_after w (set_permission true app_id x w) =
        [.permission_store_set_permission PERMISSION_TABLE true PERMISSION_ID app_id [p]] ∧
      get_one_permission app_id (some [(app_id, [p])]) = x) ∧
    ∀ other, other ≠ app_id →
      g_variant_lookup ((set_permission true app_id x w).store.getD []) other =
        g_variant_lookup (w.store.getD []) other := by
  obtain ⟨p, hp1, hp2, hp3⟩ := set_permission_of_ne_unset true app_id x w hx
  refine ⟨?_, ⟨p, ?_, hp1⟩, ?_⟩
  · rw [get_permission_fst, hp3]
    simpa using hp2 w.store
  · apply calls_after_of_log
    rw [hp3]
  · intro other ho
    rw [hp3]
    simpa using store_set_permission_lookup_other w.store app_id other [p] ho

/-- C2 at the application "org.example.App" with YES over an empty store. -/
theorem set_permission_get_permission_witness :
    (get_permission true "org.example.App"
        (set_permission true "org.example.App" .YES (World.start none))).1 = .YES ∧
    (∃ p, calls_after (World.start none)
          (set_permission true "org.example.App" .YES (World.start none)) =
        [.permission_store_set_permission PERMISSION_TABLE true PERMISSION_ID
          "org.example.App" [p]] ∧
      get_one_permission "org.example.App" (some [("org.example.App", [p])]) = .YES) ∧
    ∀ other, other ≠ "org.example.App" →
      g_variant_lookup ((set_permission true "org.example.App" .YES
          (World.start none)).store.getD []) other =
        g_variant_lookup ((World.start none).store.getD []) other :=
  set_permission_get_permission "org.example.App" .YES (World.start none) (by decide)

/-- C3: a request of the trusted host is granted (`allowed` is true) whatever
the options and the store hold, and the worker makes no access-dialog call, no
permission-store lookup and no permission-store write; the store is as
before. -/
theorem host_request_granted (env : WorkerEnv) (request : Request) (w : World)
    (h : request.app_info.is_host = true) :
    (handle_request_background_in_thread_func env request w).allowed = true ∧
    (handle_request_background_in_thread_func env request w).world.store = w.store ∧
    ∀ e ∈ calls_after w (handle_request_background_in_thread_func env request w).world,
      e.is_access_dialog = false ∧ e.is_store_lookup = false ∧ e.is_store_set = false := by
  cases hexp : request.exported <;>
    simp [handle_request_background_in_thread_func, h, hexp, World.call, request_unexport,
      calls_after, Event.is_access_dialog, Event.is_store_lookup, Event.is_store_set]

/-- C3 at the sample host request, over a store that says "no". -/
theorem host_request_granted_witness :
    sample_host_request.app_info.is_host = true ∧
    (handle_request_background_in_thread_func sample_env sample_host_request
      (sample_world ["no"])).allowed = true :=
  ⟨rfl, (host_request_granted sample_env sample_host_request (sample_world ["no"]) rfl).1⟩

/-- C4: for a request that is not the host and whose stored permission
resolves to YES or NO, the worker makes no access-dialog call and no
permission-store write, the store is as before, and `allowed` is true for YES
and false for NO. -/
theorem stored_yes_no_decides (env : WorkerEnv) (request : Request) (w : World)
    (hhost : request.app_info.is_host = false)
    (hp : (get_permission env.lookup_ok request.app_info.id w).1 = .YES ∨
      (get_permission env.lookup_ok request.app_info.id w).1 = .NO) :
    (∀ e ∈ calls_after w (handle_request_background_in_thread_func env request w).world,
      e.is_access_dialog = false ∧ e.is_store_set = false) ∧
    (handle_request_background_in_thread_func env request w).world.store = w.store ∧
    (handle_request_background_in_thread_func env request w).allowed =
      decide ((get_permission env.lookup_ok request.app_info.id w).1 = .YES) := by
  have h2 := get_permission_snd env.lookup_ok request.app_info.id w
  rcases hp with hp | hp <;> cases hexp : request.exported <;>
    simp [handle_request_background_in_thread_func, hhost, hp, h2, hexp, World.call,
      request_unexport, calls_after, Event.is_access_dialog, Event.is_store_set]

/-- C4 at the sample request over a store that says "no": denied. -/
theorem stored_yes_no_decides_witness :
    (sample_request.app_info.is_host = false ∧
      (get_permission sample_env.lookup_ok sample_request.app_info.id
        (sample_world ["no"])).1 = .NO) ∧
    (handle_request_background_in_thread_func sample_env sample_request
      (sample_world ["no"])).allowed =
        decide ((get_permission sample_env.lookup_ok sample_request.app_info.id
          (sample_world ["no"])).1 = .YES) :=
  ⟨⟨rfl, by decide⟩,
    (stored_yes_no_decides sample_env sample_request (sample_world ["no"]) rfl
      (Or.inr (by decide))).2.2⟩

/-- C5: for a request that is not the host and whose permission resolves to
ASK or UNSET, `allowed` is true exactly when the access dialog answered with
response code 0; the dialog is called once; the worker calls the store's
SetPermission if and only if the permission was UNSET, then with "yes" when
allowed and "no" otherwise; and with ASK the store is as before. -/
theorem ask_unset_dialog_decides (env : WorkerEnv) (request : Request) (w : World)
    (hhost : request.app_info.is_host = false)
    (hp : (get_permission env.lookup_ok request.app_info.id w).1 = .ASK ∨
      (get_permission env.lookup_ok request.app_info.id w).1 = .UNSET) :
    ((handle_request_background_in_thread_func env request w).allowed = true ↔
      env.dialog_reply = some 0) ∧
    ((calls_after w (handle_request_background_in_thread_func env request w).world).filter
        Event.is_access_dialog).length = 1 ∧
    (calls_after w (handle_request_background_in_thread_func env request w).world).filter
        Event.is_store_set =
      (if (get_permission env.lookup_ok request.app_info.id w).1 = .UNSET then
        [.permission_store_set_permission PERMISSION_TABLE true PERMISSION_ID
          request.app_info.id
          [if (handle_request_background_in_thread_func env request w).allowed then "yes"
            else "no"]]
      else []) ∧
    ((get_permission env.lookup_ok request.app_info.id w).1 = .UNSET →
      (handle_request_background_in_thread_func env request w).world.store =
        if env.set_ok then
          w.store.set_permission request.app_info.id
            [if (handle_request_background_in_thread_func env request w).allowed then "yes"
              else "no"]
        else w.store) ∧
    ((get_permission env.lookup_ok request.app_info.id w).1 = .ASK →
      (handle_request_background_in_thread_func env request w).world.store = w.store) := by
  have h2 := get_permission_snd env.lookup_ok request.app_info.id w
  rcases hd : env.dialog_reply with _ | r
  · rcases hp with hp | hp <;> cases hexp : request.exported <;> cases hset : env.set_ok <;>
      simp [handle_request_background_in_thread_func, hhost, hp, h2, hexp, hd, hset,
        World.call, request_unexport, calls_after, Event.is_access_dialog,
        Event.is_store_set, set_permission]
  · by_cases hr : r = 0 <;> rcases hp with hp | hp <;> cases hexp : request.exported <;>
      cases hset : env.set_ok <;>
      simp [handle_request_background_in_thread_func, hhost, hp, h2, hexp, hd, hr, hset,
        World.call, request_unexport, calls_after, Event.is_access_dialog,
        Event.is_store_set, set_permission]

/-- C5 at the sample request over an empty store (UNSET) with a granting
dialog: "yes" is stored. -/
theorem ask_unset_dialog_decides_witness :
    (sample_request.app_info.is_host = false ∧
      (get_permission sample_env.lookup_ok sample_request.app_info.id
        (World.start none)).1 = .UNSET) ∧
    (handle_request_background_in_thread_func sample_env sample_request
      (World.start none)).world.store = some [("org.example.App", ["yes"])] :=
  ⟨⟨rfl, by decide⟩,
    ((ask_unset_dialog_decides sample_env sample_request (World.start none) rfl
      (Or.inr (by decide))).2.2.2.1 (by decide)).trans (by decide)⟩

theorem length_mk_replicate (n : Nat) (c : Char) :
    (String.mk (List.replicate n c)).length = n := by
  simp [String.length]

theorem utf8Len_replicate (n : Nat) (c : Char) :
    String.utf8Len (List.replicate n c) = n * c.utf8Size := by
  induction n with
  | zero => simp
  | succ k ih => simp [List.replicate_succ, ih, Nat.succ_mul]

theorem utf8ByteSize_mk_replicate (n : Nat) (c : Char) :
    (String.mk (List.replicate n c)).utf8ByteSize = n * c.utf8Size := by
  simp [String.utf8ByteSize, utf8Len_replicate]

/-- C6: what the code does with an oversized reason.  For the reason of 257
letters, which `validate_reason` rejects, and whatever `xdp_filter_options`
returns, `handle_request_background` (its request proxy created) answers the
invocation with the request handle, not with an error, and starts the
worker. -/
theorem handle_request_background_oversized_reason
    (xdp_filter_options : VarDict → List XdpOptionKey → VarDict × Bool) (request : Request)
    (arg_window : String) :
    validate_reason "reason" (.string (String.mk (List.replicate 257 (Char.ofNat 97)))) [] =
      .error (.XDG_DESKTOP_PORTAL_ERROR_INVALID_ARGUMENT "Not accepting overly long reasons") ∧
    (handle_request_background xdp_filter_options (.ok ()) request arg_window
      [("reason", .string (String.mk (List.replicate 257 (Char.ofNat 97))))]).reply =
        .complete_request_background request.id ∧
    (handle_request_background xdp_filter_options (.ok ()) request arg_window
      [("reason", .string (String.mk (List.replicate 257 (Char.ofNat 97))))]).worker_started =
        true := by
  refine ⟨?_, rfl, rfl⟩
  have h := length_mk_replicate 257 (Char.ofNat 97)
  simp only [validate_reason, g_variant_get_string, g_utf8_strlen, h]
  rfl

/-- C7: `validate_reason` accepts a reason exactly when its length in
characters (codepoints) is at most 256, and rejects every longer one with the
invalid-argument error; 256 characters are accepted, also when they take 512
bytes, and 257 characters are rejected. -/
theorem validate_reason_spec (key s : String) (options : VarDict) :
    (validate_reason key (.string s) options = .ok () ↔ s.length ≤ 256) ∧
    (validate_reason key (.string s) options =
        .error (.XDG_DESKTOP_PORTAL_ERROR_INVALID_ARGUMENT "Not accepting overly long reasons") ↔
      256 < s.length) ∧
    validate_reason key (.string (String.mk (List.replicate 256 (Char.ofNat 97)))) options =
      .ok () ∧
    (String.mk (List.replicate 256 (Char.ofNat 233))).utf8ByteSize = 512 ∧
    validate_reason key (.string (String.mk (List.replicate 256 (Char.ofNat 233)))) options =
      .ok () ∧
    validate_reason key (.string (String.mk (List.replicate 257 (Char.ofNat 97)))) options =
      .error (.XDG_DESKTOP_PORTAL_ERROR_INVALID_ARGUMENT "Not accepting overly long reasons") := by
  refine ⟨?_, ?_, ?_, ?_, ?_, ?_⟩
  · by_cases h : 256 < s.length <;>
      simp [validate_reason, g_variant_get_string, g_utf8_strlen, h]
    omega
  · by_cases h : 256 < s.length <;>
      simp [validate_reason, g_variant_get_string, g_utf8_strlen, h]
  · have h := length_mk_replicate 256 (Char.ofNat 97)
    simp only [validate_reason, g_variant_get_string, g_utf8_strlen, h]
    rfl
  · rw [utf8ByteSize_mk_replicate]
    rfl
  · have h := length_mk_replicate 256 (Char.ofNat 233)
    simp only [validate_reason, g_variant_get_string, g_utf8_strlen, h]
    rfl
  · have h := length_mk_replicate 257 (Char.ofNat 97)
    simp only [validate_reason, g_variant_get_string, g_utf8_strlen, h]
    rfl

/-- C8: when the worker completes on a request that is still exported, it
emits exactly one response, carrying background = `allowed` and autostart =
the boolean the EnableAutostart call reported (with a failed call, whatever
the uninitialised local holds), with status SUCCESS when allowed and CANCELLED
otherwise; unexporting the request is its last call.  On a request that is no
longer exported it emits no response and leaves the request as it is. -/
theorem worker_response (env : WorkerEnv) (request : Request) (w : World) :
    (request.exported = true →
      (calls_after w (handle_request_background_in_thread_func env request w).world).filter
          Event.is_emit_response =
        [.emit_response request.id
          (if (handle_request_background_in_thread_func env request w).allowed then .SUCCESS
            else .CANCELLED)
          [("background",
              .boolean (handle_request_background_in_thread_func env request w).allowed),
            ("autostart",
              .boolean (env.autostart_reply.getD env.autostart_enabled_uninit))]] ∧
      (calls_after w (handle_request_background_in_thread_func env request w).world).getLast? =
        some (.request_unexport request.id) ∧
      (handle_request_background_in_thread_func env request w).request.exported = false) ∧
    (request.exported = false →
      (calls_after w (handle_request_background_in_thread_func env request w).world).filter
          Event.is_emit_response = [] ∧
      (handle_request_background_in_thread_func env request w).request = request) := by
  have h2 := get_permission_snd env.lookup_ok request.app_info.id w
  cases hexp : request.exported <;> cases hhost : request.app_info.is_host <;>
    rcases hp : (get_permission env.lookup_ok request.app_info.id w).1 <;>
    cases hset : env.set_ok <;> rcases hd : env.dialog_reply with _ | r <;>
    rcases ha : env.autostart_reply with _ | b <;>
    simp [handle_request_background_in_thread_func, hhost, hp, h2, hexp, hd, hset, ha,
      World.call, request_unexport, calls_after, Event.is_emit_response, set_permission,
      List.getLast?_append, List.filter_append] <;>
    by_cases hr : r = 0 <;>
    simp [hr, World.call, Event.is_emit_response, List.getLast?_append, List.filter_append]

/-- C8 at the sample request over a store that says "yes": one response with
status SUCCESS, background true and the reported autostart true. -/
theorem worker_response_witness :
    sample_request.exported = true ∧
    (calls_after (sample_world ["yes"])
        (handle_request_background_in_thread_func sample_env sample_request
          (sample_world ["yes"])).world).filter Event.is_emit_response =
      [.emit_response sample_request.id .SUCCESS
        [("background", .boolean true), ("autostart", .boolean true)]] :=
  ⟨rfl, ((worker_response sample_env sample_request (sample_world ["yes"])).1 rfl).1.trans
    (by decide)⟩

/-- C9: a failed access-dialog call is a denial.  For a request that is not
the host and whose permission resolves to ASK or UNSET, when the dialog call
fails `allowed` is false, the worker goes on to its EnableAutostart call (with
enable = false), and on a request still exported it emits one response, with
status CANCELLED and background false, and unexports the request. -/
theorem dialog_failure_denies (env : WorkerEnv) (request : Request) (w : World)
    (hhost : request.app_info.is_host = false)
    (hp : (get_permission env.lookup_ok request.app_info.id w).1 = .ASK ∨
      (get_permission env.lookup_ok request.app_info.id w).1 = .UNSET)
    (hfail : env.dialog_reply = none) :
    (handle_request_background_in_thread_func env request w).allowed = false ∧
    (∃ commandline flags,
      (calls_after w (handle_request_background_in_thread_func env request w).world).filter
          Event.is_enable_autostart =
        [.enable_autostart request.app_info.id false commandline flags]) ∧
    (request.exported = true →
      (calls_after w (handle_request_background_in_thread_func env request w).world).filter
          Event.is_emit_response =
        [.emit_response request.id .CANCELLED
          [("background", .boolean false),
            ("autostart",
              .boolean (env.autostart_reply.getD env.autostart_enabled_uninit))]] ∧
      (handle_request_background_in_thread_func env request w).request.exported = false) := by
  have h2 := get_permission_snd env.lookup_ok request.app_info.id w
  rcases hp with hp | hp <;> cases hexp : request.exported <;> cases hset : env.set_ok <;>
    rcases ha : env.autostart_reply with _ | b <;>
    simp [handle_request_background_in_thread_func, hhost, hp, h2, hexp, hfail, hset, ha,
      World.call, request_unexport, calls_after, Event.is_emit_response,
      Event.is_enable_autostart, set_permission, List.filter_append]

/-- C9 at the sample request over an empty store, the dialog call failing:
denied, and "no" is what the response and the store get. -/
theorem dialog_failure_denies_witness :
    (sample_request.app_info.is_host = false ∧
      (get_permission sample_env_dialog_fails.lookup_ok sample_request.app_info.id
        (World.start none)).1 = .UNSET ∧
      sample_env_dialog_fails.dialog_reply = none) ∧
    (handle_request_background_in_thread_func sample_env_dialog_fails sample_request
      (World.start none)).allowed = false :=
  ⟨⟨rfl, by decide, rfl⟩,
    (dialog_failure_denies sample_env_dialog_fails sample_request (World.start none) rfl
      (Or.inr (by decide)) rfl).1⟩

/-- C10: the assertion of `send_notification` can fail.  The monitor starts
over an empty store and sees one running instance in the background: the first
cycle records it, the second notifies and leaves its handle set.  The store
then gets "ask" for the application, and the third cycle, finding the
permission changed, clears the notified flag and calls `send_notification` on
the record whose handle is still set: the process is aborted.  The same
happens with an unchanged store that says "ask" when the lookup call of the
third cycle fails. -/
theorem send_notification_assertion_fails :
    (∃ w, run (World.start none) [.cycle sample_cycle, .cycle sample_cycle] = .ok w ∧
      (g_hash_table_lookup w.applications "1234").map (fun d => (d.handle, d.notified)) =
        some (some "/org/freedesktop/portal/desktop/notify/background0", true)) ∧
    aborted (run (World.start none)
      [.cycle sample_cycle, .cycle sample_cycle,
        .store_changed (some [("org.example.App", ["ask"])]), .cycle sample_cycle]) = true ∧
    aborted (run (sample_world ["ask"])
      [.cycle sample_cycle, .cycle sample_cycle,
        .cycle { sample_cycle with lookup_ok := false }]) = true := by
  refine ⟨⟨_, rfl, ?_⟩, ?_, ?_⟩
  · decide
  · decide
  · decide

/-! ### The monitor: tables, turns of the loop, cycles -/

theorem lookup_eq_none_iff_any {α : Type} (t : List (String × α)) (k : String) :
    List.lookup k t = none ↔ ∀ e ∈ t, e.1 ≠ k := by
  induction t with
  | nil => simp
  | cons e rest ih =>
    obtain ⟨a, b⟩ := e
    by_cases h : k = a
    · subst h; simp [List.lookup_cons]
    · have h1 : (k == a) = false := by simpa using h
      have h2 : ¬ a = k := fun h3 => h h3.symm
      simp [List.lookup_cons, h1, h2, ih]

theorem lookup_map_replace {α : Type} (t : List (String × α)) (k k2 : String) (v : α) :
    List.lookup k2 (t.map (fun e => if e.1 = k then (e.1, v) else e)) =
      if k2 = k then (List.lookup k2 t).map (fun _ => v) else List.lookup k2 t := by
  induction t with
  | nil => simp
  | cons e rest ih =>
    obtain ⟨a, b⟩ := e
    by_cases ha : a = k
    · subst ha
      by_cases h2 : k2 = a
      · subst h2; simp [List.lookup_cons]
      · have h1 : (k2 == a) = false := by simpa using h2
        simp [List.lookup_cons, h1, h2, ih]
    · by_cases h2 : k2 = a
      · subst h2; simp [List.lookup_cons, ha]
      · have h1 : (k2 == a) = false := by simpa using h2
        simp [List.lookup_cons, ha, h1, ih]

theorem lookup_append_single {α : Type} (t : List (String × α)) (k k2 : String) (v : α) :
    List.lookup k2 (t ++ [(k, v)]) =
      match List.lookup k2 t with
      | some x => some x
      | none => if k2 = k then some v else none := by
  induction t with
  | nil =>
    by_cases h : k2 = k
    · subst h; simp [List.lookup_cons]
    · have h1 : (k2 == k) = false := by simpa using h
      simp [List.lookup_cons, h1, h]
  | cons e rest ih =>
    obtain ⟨a, b⟩ := e
    by_cases h2 : k2 = a
    · subst h2; simp [List.lookup_cons]
    · have h1 : (k2 == a) = false := by simpa using h2
      simp [List.lookup_cons, h1, ih]

theorem g_hash_table_insert_eq {α : Type} (t : List (String × α)) (k : String) (v : α) :
    g_hash_table_insert t k v =
      if ∃ e ∈ t, e.1 = k then t.map (fun e => if e.1 = k then (e.1, v) else e)
      else t ++ [(k, v)] := by
  unfold g_hash_table_insert
  have hiff : ((t.any fun e => e.1 == k) = true) ↔ ∃ e ∈ t, e.1 = k := by
    simp [List.any_eq_true]
  by_cases hany : ∃ e ∈ t, e.1 = k
  · rw [if_pos hany, if_pos (hiff.2 hany)]
    simp only [beq_iff_eq]
  · rw [if_neg hany, if_neg (fun h => hany (hiff.1 h))]

/-- What `g_hash_table_lookup` finds after `g_hash_table_insert`. -/
theorem g_hash_table_lookup_insert {α : Type} (t : List (String × α)) (k k2 : String) (v : α) :
    g_hash_table_lookup (g_hash_table_insert t k v) k2 =
      if k2 = k then some v else g_hash_table_lookup t k2 := by
  rw [g_hash_table_insert_eq]
  unfold g_hash_table_lookup
  by_cases hany : ∃ e ∈ t, e.1 = k
  · rw [if_pos hany, lookup_map_replace]
    by_cases h2 : k2 = k
    · subst h2
      cases hl : List.lookup k2 t with
      | none =>
        obtain ⟨e, he, hk⟩ := hany
        exact absurd hk ((lookup_eq_none_iff_any t k2).1 hl e he)
      | some x => simp
    · simp [h2]
  · rw [if_neg hany, lookup_append_single]
    have hnone : List.lookup k t = none :=
      (lookup_eq_none_iff_any t k).2 (fun e he hk => hany ⟨e, he, hk⟩)
    by_cases h2 : k2 = k
    · subst h2; simp [hnone]
    · cases hl : List.lookup k2 t <;> simp [h2]

theorem g_hash_table_insert_keys {α : Type} (t : List (String × α)) (k : String) (v : α) :
    (g_hash_table_insert t k v).map (fun e => e.1) =
      if ∃ e ∈ t, e.1 = k then t.map (fun e => e.1) else t.map (fun e => e.1) ++ [k] := by
  rw [g_hash_table_insert_eq]
  by_cases hany : ∃ e ∈ t, e.1 = k
  · rw [if_pos hany, if_pos hany, List.map_map]
    apply List.map_congr_left
    intro e _
    by_cases h : e.1 = k <;> simp [h]
  · rw [if_neg hany, if_neg hany]
    simp

theorem g_hash_table_insert_nodup {α : Type} (t : List (String × α)) (k : String) (v : α)
    (h : (t.map (fun e => e.1)).Nodup) :
    ((g_hash_table_insert t k v).map (fun e => e.1)).Nodup := by
  rw [g_hash_table_insert_keys]
  by_cases hany : ∃ e ∈ t, e.1 = k
  · rw [if_pos hany]; exact h
  · rw [if_neg hany]
    refine List.Nodup.append h (by simp) ?_
    intro x hx hx2
    obtain ⟨e, he, hk⟩ := List.mem_map.1 hx
    have hxk : x = k := by simpa using hx2
    exact hany ⟨e, he, hk.trans hxk⟩

theorem g_hash_table_insert_mem {α : Type} (t : List (String × α)) (k : String) (v : α)
    (e : String × α) (he : e ∈ g_hash_table_insert t k v) : e ∈ t ∨ e = (k, v) := by
  rw [g_hash_table_insert_eq] at he
  by_cases hany : ∃ e ∈ t, e.1 = k
  · rw [if_pos hany] at he
    obtain ⟨x, hx, rfl⟩ := List.mem_map.1 he
    by_cases h : x.1 = k
    · right; simp [h]
    · left; simpa [h] using hx
  · rw [if_neg hany] at he
    simpa using he

theorem update_fields (stamp : Nat) (st : AppState) (p : Permission) (d : InstanceData) :
    (d.update stamp st p).flatpak_instance = d.flatpak_instance ∧
    (d.update stamp st p).stamp = stamp ∧ (d.update stamp st p).state = st ∧
    (d.update stamp st p).handle = d.handle ∧ (d.update stamp st p).permission = p ∧
    (d.update stamp st p).notified = (decide (d.permission = p) && d.notified) := by
  by_cases h : d.permission = p <;> simp [InstanceData.update, h]

theorem body_not_running (stamp : Nat) (app_states : List (String × AppState))
    (perms : Option Perms) (w : World) (i : FlatpakInstance) (h : i.is_running = false) :
    check_background_apps_body stamp app_states perms w i = .ok w := by
  simp [check_background_apps_body, h]

theorem body_new (stamp : Nat) (app_states : List (String × AppState))
    (perms : Option Perms) (w : World) (i : FlatpakInstance) (hrun : i.is_running = true)
    (hnew : g_hash_table_lookup w.applications i.id = none) :
    check_background_apps_body stamp app_states perms w i =
      .ok { w with applications := (g_hash_table_insert w.applications i.id
        { flatpak_instance := i, stamp := stamp,
          state := get_one_app_state i.app app_states, handle := none, notified := false,
          permission := get_one_permission i.app perms }) } := by
  by_cases hp : Permission.UNSET = get_one_permission i.app perms <;>
    simp [check_background_apps_body, hrun, hnew, InstanceData.new0, hp]

theorem body_skip (stamp : Nat) (app_states : List (String × AppState))
    (perms : Option Perms) (w : World) (i : FlatpakInstance) (d : InstanceData)
    (hrun : i.is_running = true)
    (hfound : g_hash_table_lookup w.applications i.id = some d)
    (h : get_one_app_state i.app app_states ≠ BACKGROUND ∨
      (d.permission = get_one_permission i.app perms ∧ d.notified = true) ∨
      get_one_permission i.app perms = .YES) :
    check_background_apps_body stamp app_states perms w i =
      .ok { w with applications := (g_hash_table_insert w.applications i.id
        (d.update stamp (get_one_app_state i.app app_states)
          (get_one_permission i.app perms))) } := by
  by_cases hp : d.permission = get_one_permission i.app perms <;>
  by_cases hst : get_one_app_state i.app app_states = BACKGROUND <;>
  cases hn : d.notified <;>
  rcases hperm : get_one_permission i.app perms <;>
  simp_all [check_background_apps_body, InstanceData.update]

theorem body_kill (stamp : Nat) (app_states : List (String × AppState))
    (perms : Option Perms) (w : World) (i : FlatpakInstance) (d : InstanceData)
    (hrun : i.is_running = true)
    (hfound : g_hash_table_lookup w.applications i.id = some d)
    (hst : get_one_app_state i.app app_states = BACKGROUND)
    (hp : get_one_permission i.app perms = .NO)
    (hn : d.permission = .NO → d.notified = false) :
    check_background_apps_body stamp app_states perms w i =
      .ok { w with
        applications := (g_hash_table_insert
          (g_hash_table_insert w.applications i.id (d.update stamp BACKGROUND .NO)) i.id
          { d.update stamp BACKGROUND .NO with stamp := 0 }),
        log := w.log ++ [.kill (d.update stamp BACKGROUND .NO).flatpak_instance.child_pid] } := by
  by_cases hperm : d.permission = .NO
  · have hn2 := hn hperm
    simp [check_background_apps_body, hrun, hfound, hst, hp, hperm, hn2, InstanceData.update,
      kill_instance, World.call, g_hash_table_lookup_insert, BACKGROUND]
  · simp [check_background_apps_body, hrun, hfound, hst, hp, hperm, InstanceData.update,
      kill_instance, World.call, g_hash_table_lookup_insert, BACKGROUND]

theorem body_notify (stamp : Nat) (app_states : List (String × AppState))
    (perms : Option Perms) (w : World) (i : FlatpakInstance) (d : InstanceData)
    (hrun : i.is_running = true)
    (hfound : g_hash_table_lookup w.applications i.id = some d)
    (hst : get_one_app_state i.app app_states = BACKGROUND)
    (hp : get_one_permission i.app perms = .ASK ∨ get_one_permission i.app perms = .UNSET)
    (hn : d.permission = get_one_permission i.app perms → d.notified = false)
    (hh : d.handle = none) :
    check_background_apps_body stamp app_states perms w i =
      .ok { w with
        applications := (g_hash_table_insert
          (g_hash_table_insert w.applications i.id
            (d.update stamp BACKGROUND (get_one_permission i.app perms))) i.id
          { d.update stamp BACKGROUND (get_one_permission i.app perms) with
            handle := some ("/org/freedesktop/portal/desktop/notify/background" ++
              toString w.count),
            notified := true }),
        count := w.count + 1,
        pending := w.pending ++
          [{ app_id := d.flatpak_instance.app, id := d.flatpak_instance.id,
             perm := get_one_permission i.app perms }],
        log := w.log ++
          [.notify_background
            ("/org/freedesktop/portal/desktop/notify/background" ++ toString w.count)
            d.flatpak_instance.app (flatpak_instance_get_display_name d.flatpak_instance)] } := by
  by_cases hperm : d.permission = get_one_permission i.app perms
  · have hn2 := hn hperm
    rcases hp with hp | hp <;>
      simp_all [check_background_apps_body, InstanceData.update, send_notification,
        World.call, BACKGROUND]
  · rcases hp with hp | hp <;>
      simp_all [check_background_apps_body, InstanceData.update, send_notification,
        World.call, BACKGROUND]

theorem body_abort (stamp : Nat) (app_states : List (String × AppState))
    (perms : Option Perms) (w : World) (i : FlatpakInstance) (d : InstanceData)
    (hrun : i.is_running = true)
    (hfound : g_hash_table_lookup w.applications i.id = some d)
    (hst : get_one_app_state i.app app_states = BACKGROUND)
    (hp : get_one_permission i.app perms = .ASK ∨ get_one_permission i.app perms = .UNSET)
    (hn : d.permission = get_one_permission i.app perms → d.notified = false)
    (hh : d.handle ≠ none) :
    ∃ w2, check_background_apps_body stamp app_states perms w i = .error w2 := by
  by_cases hperm : d.permission = get_one_permission i.app perms
  · have hn2 := hn hperm
    rcases hp with hp | hp <;>
      simp_all [check_background_apps_body, InstanceData.update, send_notification,
        World.call, BACKGROUND]
  · rcases hp with hp | hp <;>
      simp_all [check_background_apps_body, InstanceData.update, send_notification,
        World.call, BACKGROUND]

theorem g_hash_table_insert_insert {α : Type} (t : List (String × α)) (k : String) (a b : α) :
    g_hash_table_insert (g_hash_table_insert t k a) k b = g_hash_table_insert t k b := by
  by_cases hany : ∃ e ∈ t, e.1 = k
  · have h1 : g_hash_table_insert t k a = t.map (fun e => if e.1 = k then (e.1, a) else e) := by
      rw [g_hash_table_insert_eq, if_pos hany]
    have h2 : ∃ e ∈ t.map (fun e => if e.1 = k then (e.1, a) else e), e.1 = k := by
      obtain ⟨e, he, hk⟩ := hany
      exact ⟨(e.1, a), List.mem_map.2 ⟨e, he, by simp [hk]⟩, hk⟩
    rw [h1, g_hash_table_insert_eq, if_pos h2, g_hash_table_insert_eq, if_pos hany,
      List.map_map]
    apply List.map_congr_left
    intro e _
    by_cases h : e.1 = k <;> simp [h]
  · have h1 : g_hash_table_insert t k a = t ++ [(k, a)] := by
      rw [g_hash_table_insert_eq, if_neg hany]
    have h2 : ∃ e ∈ t ++ [(k, a)], e.1 = k := ⟨(k, a), by simp, rfl⟩
    rw [h1, g_hash_table_insert_eq, if_pos h2, g_hash_table_insert_eq, if_neg hany,
      List.map_append]
    congr 1
    · conv => rhs; rw [← List.map_id t]
      apply List.map_congr_left
      intro e he
      have : ¬ e.1 = k := fun hk => hany ⟨e, he, hk⟩
      simp [this]
    · simp

/-- The ways a turn of the loop can end without the process aborted. -/
theorem body_cases (stamp : Nat) (app_states : List (String × AppState))
    (perms : Option Perms) (w w2 : World) (i : FlatpakInstance)
    (hrun : i.is_running = true)
    (hok : check_background_apps_body stamp app_states perms w i = .ok w2) :
    (g_hash_table_lookup w.applications i.id = none ∧
      w2 = { w with applications := (g_hash_table_insert w.applications i.id
        { flatpak_instance := i, stamp := stamp,
          state := get_one_app_state i.app app_states, handle := none, notified := false,
          permission := get_one_permission i.app perms }) }) ∨
    (∃ d, g_hash_table_lookup w.applications i.id = some d ∧
      (get_one_app_state i.app app_states ≠ BACKGROUND ∨
        (d.permission = get_one_permission i.app perms ∧ d.notified = true) ∨
        get_one_permission i.app perms = .YES) ∧
      w2 = { w with applications := (g_hash_table_insert w.applications i.id
        (d.update stamp (get_one_app_state i.app app_states)
          (get_one_permission i.app perms))) }) ∨
    (∃ d, g_hash_table_lookup w.applications i.id = some d ∧
      get_one_app_state i.app app_states = BACKGROUND ∧
      get_one_permission i.app perms = .NO ∧ (d.permission = .NO → d.notified = false) ∧
      w2 = { w with
        applications := (g_hash_table_insert w.applications i.id
          { d.update stamp BACKGROUND .NO with stamp := 0 }),
        log := w.log ++ [.kill d.flatpak_instance.child_pid] }) ∨
    (∃ d, g_hash_table_lookup w.applications i.id = some d ∧
      get_one_app_state i.app app_states = BACKGROUND ∧
      (get_one_permission i.app perms = .ASK ∨ get_one_permission i.app perms = .UNSET) ∧
      (d.permission = get_one_permission i.app perms → d.notified = false) ∧
      d.handle = none ∧
      w2 = { w with
        applications := (g_hash_table_insert w.applications i.id
          { d.update stamp BACKGROUND (get_one_permission i.app perms) with
            handle := some ("/org/freedesktop/portal/desktop/notify/background" ++
              toString w.count),
            notified := true }),
        count := w.count + 1,
        pending := w.pending ++
          [{ app_id := d.flatpak_instance.app, id := d.flatpak_instance.id,
             perm := get_one_permission i.app perms }],
        log := w.log ++
          [.notify_background
            ("/org/freedesktop/portal/desktop/notify/background" ++ toString w.count)
            d.flatpak_instance.app
            (flatpak_instance_get_display_name d.flatpak_instance)] }) := by
  cases hfound : g_hash_table_lookup w.applications i.id with
  | none =>
    left
    rw [body_new stamp app_states perms w i hrun hfound] at hok
    exact ⟨rfl, (Except.ok.inj hok).symm⟩
  | some d =>
    right
    by_cases hst : get_one_app_state i.app app_states = BACKGROUND
    · by_cases hn : d.permission = get_one_permission i.app perms ∧ d.notified = true
      · left
        rw [body_skip stamp app_states perms w i d hrun hfound (Or.inr (Or.inl hn))] at hok
        exact ⟨d, rfl, Or.inr (Or.inl hn), (Except.ok.inj hok).symm⟩
      · have hn2 : d.permission = get_one_permission i.app perms → d.notified = false := by
          intro h1
          cases h2 : d.notified
          · rfl
          · exact absurd ⟨h1, h2⟩ hn
        rcases hp : get_one_permission i.app perms with _ | _ | _ | _
        · right; right
          rw [hp] at hn2
          by_cases hh : d.handle = none
          · rw [body_notify stamp app_states perms w i d hrun hfound hst (Or.inr hp)
              (by rw [hp]; exact hn2) hh] at hok
            rw [g_hash_table_insert_insert, hp] at hok
            exact ⟨d, rfl, hst, Or.inr rfl, hn2, hh, (Except.ok.inj hok).symm⟩
          · obtain ⟨w3, h3⟩ := body_abort stamp app_states perms w i d hrun hfound hst
              (Or.inr hp) (by rw [hp]; exact hn2) hh
            rw [h3] at hok
            exact absurd hok (by simp)
        · right; left
          rw [hp] at hn2
          rw [body_kill stamp app_states perms w i d hrun hfound hst hp hn2,
            g_hash_table_insert_insert] at hok
          refine ⟨d, rfl, hst, rfl, hn2, ?_⟩
          rw [← Except.ok.inj hok, (update_fields stamp BACKGROUND .NO d).1]
        · left
          rw [body_skip stamp app_states perms w i d hrun hfound (Or.inr (Or.inr hp))] at hok
          rw [hp] at hok
          exact ⟨d, rfl, Or.inr (Or.inr rfl), (Except.ok.inj hok).symm⟩
        · right; right
          rw [hp] at hn2
          by_cases hh : d.handle = none
          · rw [body_notify stamp app_states perms w i d hrun hfound hst (Or.inl hp)
              (by rw [hp]; exact hn2) hh] at hok
            rw [g_hash_table_insert_insert, hp] at hok
            exact ⟨d, rfl, hst, Or.inl rfl, hn2, hh, (Except.ok.inj hok).symm⟩
          · obtain ⟨w3, h3⟩ := body_abort stamp app_states perms w i d hrun hfound hst
              (Or.inl hp) (by rw [hp]; exact hn2) hh
            rw [h3] at hok
            exact absurd hok (by simp)
    · left
      rw [body_skip stamp app_states perms w i d hrun hfound (Or.inl hst)] at hok
      exact ⟨d, rfl, Or.inl hst, (Except.ok.inj hok).symm⟩

/-- What a turn of the loop leaves alone, and the shape of what it changes. -/
theorem body_frame (stamp : Nat) (app_states : List (String × AppState))
    (perms : Option Perms) (w w2 : World) (i : FlatpakInstance)
    (hok : check_background_apps_body stamp app_states perms w i = .ok w2) :
    w2.store = w.store ∧ w2.stamp = w.stamp ∧ (∃ l, w2.log = w.log ++ l) ∧
    (w2.applications = w.applications ∨
      (i.is_running = true ∧
        ∃ r, w2.applications = g_hash_table_insert w.applications i.id r ∧
          (r.stamp = stamp ∨ r.stamp = 0))) := by
  cases hrun : i.is_running with
  | false =>
    rw [body_not_running stamp app_states perms w i hrun] at hok
    rw [← Except.ok.inj hok]
    exact ⟨rfl, rfl, ⟨[], by simp⟩, Or.inl rfl⟩
  | true =>
    rcases body_cases stamp app_states perms w w2 i hrun hok with
      ⟨_, h⟩ | ⟨d, _, _, h⟩ | ⟨d, _, _, _, _, h⟩ | ⟨d, _, _, _, _, _, h⟩
    · rw [h]
      exact ⟨rfl, rfl, ⟨[], by simp⟩, Or.inr ⟨rfl, _, rfl, Or.inl rfl⟩⟩
    · rw [h]
      exact ⟨rfl, rfl, ⟨[], by simp⟩,
        Or.inr ⟨rfl, _, rfl, Or.inl (update_fields _ _ _ d).2.1⟩⟩
    · rw [h]
      exact ⟨rfl, rfl, ⟨_, rfl⟩, Or.inr ⟨rfl, _, rfl, Or.inr rfl⟩⟩
    · rw [h]
      exact ⟨rfl, rfl, ⟨_, rfl⟩, Or.inr ⟨rfl, _, rfl, Or.inl (update_fields _ _ _ d).2.1⟩⟩

theorem body_lookup_other (stamp : Nat) (app_states : List (String × AppState))
    (perms : Option Perms) (w w2 : World) (i : FlatpakInstance) (k : String)
    (hok : check_background_apps_body stamp app_states perms w i = .ok w2)
    (hk : i.is_running = true → i.id ≠ k) :
    g_hash_table_lookup w2.applications k = g_hash_table_lookup w.applications k := by
  rcases (body_frame stamp app_states perms w w2 i hok).2.2.2 with h | ⟨hrun, r, h, _⟩
  · rw [h]
  · rw [h, g_hash_table_lookup_insert, if_neg (fun hh => hk hrun hh.symm)]

theorem loop_nil (stamp : Nat) (app_states : List (String × AppState))
    (perms : Option Perms) (w : World) :
    check_background_apps_loop stamp app_states perms w [] = .ok w := rfl

theorem loop_cons (stamp : Nat) (app_states : List (String × AppState))
    (perms : Option Perms) (w w2 : World) (i : FlatpakInstance) (rest : List FlatpakInstance)
    (hok : check_background_apps_loop stamp app_states perms w (i :: rest) = .ok w2) :
    ∃ w1, check_background_apps_body stamp app_states perms w i = .ok w1 ∧
      check_background_apps_loop stamp app_states perms w1 rest = .ok w2 := by
  rw [check_background_apps_loop] at hok
  cases hb : check_background_apps_body stamp app_states perms w i with
  | error e => rw [hb] at hok; exact absurd hok (by simp)
  | ok w1 => rw [hb] at hok; exact ⟨w1, rfl, hok⟩

/-- The loop over `pre ++ i :: post` passes through the turn of `i`. -/
theorem loop_append (stamp : Nat) (app_states : List (String × AppState))
    (perms : Option Perms) (pre : List FlatpakInstance) (i : FlatpakInstance)
    (post : List FlatpakInstance) (w w3 : World)
    (hok : check_background_apps_loop stamp app_states perms w (pre ++ i :: post) = .ok w3) :
    ∃ w1 w2, check_background_apps_loop stamp app_states perms w pre = .ok w1 ∧
      check_background_apps_body stamp app_states perms w1 i = .ok w2 ∧
      check_background_apps_loop stamp app_states perms w2 post = .ok w3 := by
  induction pre generalizing w with
  | nil =>
    obtain ⟨w1, h1, h2⟩ := loop_cons stamp app_states perms w w3 i post hok
    exact ⟨w, w1, rfl, h1, h2⟩
  | cons j rest ih =>
    obtain ⟨wj, h1, h2⟩ := loop_cons stamp app_states perms w w3 j (rest ++ i :: post) hok
    obtain ⟨w1, w2, h3, h4, h5⟩ := ih wj h2
    refine ⟨w1, w2, ?_, h4, h5⟩
    rw [check_background_apps_loop, h1]
    exact h3

theorem loop_frame (stamp : Nat) (app_states : List (String × AppState))
    (perms : Option Perms) (l : List FlatpakInstance) (w w2 : World)
    (hok : check_background_apps_loop stamp app_states perms w l = .ok w2) :
    w2.store = w.store ∧ w2.stamp = w.stamp ∧ ∃ c, w2.log = w.log ++ c := by
  induction l generalizing w with
  | nil =>
    rw [loop_nil] at hok
    rw [← Except.ok.inj hok]
    exact ⟨rfl, rfl, [], by simp⟩
  | cons j rest ih =>
    obtain ⟨wj, h1, h2⟩ := loop_cons stamp app_states perms w w2 j rest hok
    obtain ⟨a1, a2, ⟨c1, a3⟩, _⟩ := body_frame stamp app_states perms w wj j h1
    obtain ⟨b1, b2, c2, b3⟩ := ih wj h2
    exact ⟨b1.trans a1, b2.trans a2, c1 ++ c2, by rw [b3, a3, List.append_assoc]⟩

theorem loop_lookup_other (stamp : Nat) (app_states : List (String × AppState))
    (perms : Option Perms) (l : List FlatpakInstance) (w w2 : World) (k : String)
    (hok : check_background_apps_loop stamp app_states perms w l = .ok w2)
    (hk : ∀ i ∈ l, i.is_running = true → i.id ≠ k) :
    g_hash_table_lookup w2.applications k = g_hash_table_lookup w.applications k := by
  induction l generalizing w with
  | nil =>
    rw [loop_nil] at hok
    rw [← Except.ok.inj hok]
  | cons j rest ih =>
    obtain ⟨wj, h1, h2⟩ := loop_cons stamp app_states perms w w2 j rest hok
    rw [ih wj h2 (fun i hi => hk i (List.mem_cons_of_mem _ hi)),
      body_lookup_other stamp app_states perms w wj j k h1 (hk j (List.mem_cons_self _ _))]

theorem loop_wf (stamp : Nat) (app_states : List (String × AppState))
    (perms : Option Perms) (l : List FlatpakInstance) (w w2 : World)
    (hok : check_background_apps_loop stamp app_states perms w l = .ok w2)
    (hnd : (w.applications.map (fun e => e.1)).Nodup)
    (hst : ∀ e ∈ w.applications, e.2.stamp ≤ stamp) :
    (w2.applications.map (fun e => e.1)).Nodup ∧ ∀ e ∈ w2.applications, e.2.stamp ≤ stamp := by
  induction l generalizing w with
  | nil =>
    rw [loop_nil] at hok
    rw [← Except.ok.inj hok]
    exact ⟨hnd, hst⟩
  | cons j rest ih =>
    obtain ⟨wj, h1, h2⟩ := loop_cons stamp app_states perms w w2 j rest hok
    rcases (body_frame stamp app_states perms w wj j h1).2.2.2 with h | ⟨_, r, h, hr⟩
    · exact ih wj h2 (by rw [h]; exact hnd) (by rw [h]; exact hst)
    · refine ih wj h2 (by rw [h]; exact g_hash_table_insert_nodup _ _ _ hnd) ?_
      rw [h]
      intro e he
      rcases g_hash_table_insert_mem _ _ _ e he with he1 | he1
      · exact hst e he1
      · rw [he1]
        rcases hr with hr | hr <;> simp [hr]

theorem remove_outdated_fold (stamp : Nat) (l : List (String × InstanceData)) (acc : World) :
    l.foldl
      (fun acc e =>
        if e.2.stamp < stamp then
          match e.2.handle with
          | some handle => close_notification handle acc
          | none => acc
        else acc) acc = acc := by
  induction l generalizing acc with
  | nil => simp
  | cons e rest ih =>
    rw [List.foldl_cons, ih]
    by_cases hs : e.2.stamp < stamp
    · cases hh : e.2.handle <;>
        simp [hs, close_notification, background_proxy_connection]
    · simp [hs]

/-- `remove_outdated_instances` keeps the entries stamped `stamp` or later and
changes nothing else: `close_notification` sends no call. -/
theorem remove_outdated_eq (stamp : Nat) (w : World) :
    remove_outdated_instances stamp w =
      { w with
        applications := w.applications.filter (fun e => !decide (e.2.stamp < stamp)) } := by
  have h := remove_outdated_fold stamp w.applications w
  exact congrArg (fun w1 : World =>
    ({ w1 with applications := w.applications.filter (fun e => !decide (e.2.stamp < stamp)) } :
      World)) h

theorem lookup_filter_keep {α : Type} (p : String × α → Bool) (l : List (String × α))
    (k : String) (d : α) (h : List.lookup k l = some d) (hp : p (k, d) = true) :
    List.lookup k (l.filter p) = some d := by
  induction l with
  | nil => simp at h
  | cons e rest ih =>
    obtain ⟨a, b⟩ := e
    by_cases hk : k = a
    · subst hk
      simp [List.lookup_cons] at h
      subst h
      simp [List.filter_cons, hp, List.lookup_cons]
    · have h1 : (k == a) = false := by simpa using hk
      simp [List.lookup_cons, h1] at h
      by_cases hpe : p (a, b) = true
      · simp [List.filter_cons, hpe, List.lookup_cons, h1, ih h]
      · simp [List.filter_cons, hpe, ih h]

theorem lookup_filter_none {α : Type} (p : String × α → Bool) (l : List (String × α))
    (k : String) (h : List.lookup k l = none) : List.lookup k (l.filter p) = none := by
  rw [lookup_eq_none_iff_any] at h ⊢
  intro e he
  exact h e (List.mem_filter.1 he).1

theorem lookup_filter_drop {α : Type} (p : String × α → Bool) (l : List (String × α))
    (k : String) (d : α) (hnd : (l.map (fun e => e.1)).Nodup)
    (h : List.lookup k l = some d) (hp : p (k, d) = false) :
    List.lookup k (l.filter p) = none := by
  induction l with
  | nil => simp at h
  | cons e rest ih =>
    obtain ⟨a, b⟩ := e
    simp only [List.map_cons, List.nodup_cons] at hnd
    by_cases hk : k = a
    · subst hk
      simp [List.lookup_cons] at h
      subst h
      simp only [List.filter_cons, hp]
      rw [lookup_eq_none_iff_any]
      intro e he hek
      exact hnd.1 (List.mem_map.2 ⟨e, (List.mem_filter.1 he).1, hek⟩)
    · have h1 : (k == a) = false := by simpa using hk
      simp [List.lookup_cons, h1] at h
      by_cases hpe : p (a, b) = true
      · simp [List.filter_cons, hpe, List.lookup_cons, h1, ih hnd.2 h]
      · simp [List.filter_cons, hpe, ih hnd.2 h]

theorem lookup_mem {α : Type} (l : List (String × α)) (k : String) (d : α)
    (h : List.lookup k l = some d) : (k, d) ∈ l := by
  induction l with
  | nil => simp at h
  | cons e rest ih =>
    obtain ⟨a, b⟩ := e
    by_cases hk : k = a
    · subst hk
      simp [List.lookup_cons] at h
      subst h
      simp
    · have h1 : (k == a) = false := by simpa using hk
      simp [List.lookup_cons, h1] at h
      exact List.mem_cons_of_mem _ (ih h)

theorem mem_lookup {α : Type} (l : List (String × α)) (k : String) (d : α)
    (hnd : (l.map (fun e => e.1)).Nodup) (h : (k, d) ∈ l) : List.lookup k l = some d := by
  induction l with
  | nil => simp at h
  | cons e rest ih =>
    obtain ⟨a, b⟩ := e
    simp only [List.map_cons, List.nodup_cons] at hnd
    rcases List.mem_cons.1 h with h1 | h1
    · simp only [Prod.mk.injEq] at h1
      obtain ⟨rfl, rfl⟩ := h1
      simp [List.lookup_cons]
    · have hk : ¬ k = a := by
        intro hka
        subst hka
        exact hnd.1 (List.mem_map.2 ⟨(k, d), h1, rfl⟩)
      have h2 : (k == a) = false := by simpa using hk
      simp [List.lookup_cons, h2, ih hnd.2 h1]

theorem cycle_start_fields (env : CycleEnv) (w : World) :
    (cycle_start env w).applications = w.applications ∧
    (cycle_start env w).stamp = w.stamp + 1 ∧
    (cycle_start env w).store = w.store ∧
    (cycle_start env w).count = w.count ∧
    (cycle_start env w).pending = w.pending ∧
    (cycle_start env w).log =
      w.log ++ [.get_app_state, .permission_store_lookup PERMISSION_TABLE PERMISSION_ID] := by
  cases hr : env.app_state_reply <;> cases hl : env.lookup_ok <;> cases hs : w.store <;>
    simp [cycle_start, get_all_permissions, get_app_states, World.call, hr, hl, hs]

theorem cycle_perms_eq (env : CycleEnv) (w : World) :
    cycle_perms env w = if env.lookup_ok then w.store else none := by
  cases hr : env.app_state_reply <;> cases hl : env.lookup_ok <;> cases hs : w.store <;>
    simp [cycle_perms, get_all_permissions, get_app_states, World.call, hr, hl, hs]

theorem check_background_apps_eq (env : CycleEnv) (w : World) :
    check_background_apps env w =
      match cycle_app_states env w with
      | none => .ok (get_app_states env.app_state_reply w).2
      | some app_states =>
        match check_background_apps_loop (cycle_start env w).stamp app_states
          (cycle_perms env w) (cycle_start env w) env.instances with
        | .error w2 => .error w2
        | .ok w2 => .ok (remove_outdated_instances w2.stamp w2) := rfl

/-- A cycle that is not skipped and not aborted is the loop over the
instances followed by the cleanup. -/
theorem cycle_ok (env : CycleEnv) (w w2 : World) (app_states : List (String × AppState))
    (hst : cycle_app_states env w = some app_states)
    (hok : check_background_apps env w = .ok w2) :
    ∃ w1, check_background_apps_loop (w.stamp + 1) app_states (cycle_perms env w)
        (cycle_start env w) env.instances = .ok w1 ∧
      w2 = remove_outdated_instances (w.stamp + 1) w1 := by
  have hs := (cycle_start_fields env w).2.1
  rw [check_background_apps_eq, hst] at hok
  simp only [] at hok
  rw [hs] at hok
  cases hl : check_background_apps_loop (w.stamp + 1) app_states (cycle_perms env w)
      (cycle_start env w) env.instances with
  | error e => rw [hl] at hok; exact absurd hok (by simp)
  | ok w1 =>
    rw [hl] at hok
    refine ⟨w1, rfl, ?_⟩
    have h2 := (loop_frame _ _ _ _ _ _ hl).2.1
    rw [hs] at h2
    rw [← Except.ok.inj hok, h2]

theorem cycle_skipped (env : CycleEnv) (w : World) (h : env.app_state_reply = none) :
    check_background_apps env w = .ok (w.call .get_app_state) := by
  simp [check_background_apps, get_app_states, h]

theorem set_permission_fields (reply_ok : Bool) (app_id : String) (p : Permission)
    (w : World) :
    (set_permission reply_ok app_id p w).applications = w.applications ∧
    (set_permission reply_ok app_id p w).stamp = w.stamp ∧
    (set_permission reply_ok app_id p w).count = w.count ∧
    (set_permission reply_ok app_id p w).pending = w.pending := by
  cases p <;> cases reply_ok <;> simp [set_permission, World.call]

theorem kill_instance_fields (id : String) (w : World) :
    (kill_instance id w).applications = w.applications ∧
    (kill_instance id w).stamp = w.stamp ∧ (kill_instance id w).store = w.store ∧
    (kill_instance id w).count = w.count ∧ (kill_instance id w).pending = w.pending := by
  unfold kill_instance
  cases g_hash_table_lookup w.applications id <;> simp [World.call]

theorem notify_background_done_canon (ddata : DoneData) (results : VarDict)
    (result_uninit : Nat) (set_ok : Bool) (w : World) (r : Nat)
    (hr : (g_variant_lookup_uint32 results "result").getD result_uninit = r) :
    notify_background_done ddata (some results) result_uninit set_ok w =
      notify_background_done ddata (some [("result", .uint32 r)]) 0 set_ok w := by
  cases hres : g_variant_lookup_uint32 results "result" with
  | none =>
    rw [hres] at hr
    simp only [Option.getD] at hr
    subst hr
    have hc : ∀ n : Nat, g_variant_lookup_uint32 [("result", GVariant.uint32 n)] "result" =
        some n := by
      intro n
      simp [g_variant_lookup_uint32, g_variant_lookup_value, List.lookup_cons]
    simp only [notify_background_done, hres, hc]
  | some x =>
    rw [hres] at hr
    simp only [Option.getD] at hr
    subst hr
    have hc : ∀ n : Nat, g_variant_lookup_uint32 [("result", GVariant.uint32 n)] "result" =
        some n := by
      intro n
      simp [g_variant_lookup_uint32, g_variant_lookup_value, List.lookup_cons]
    simp only [notify_background_done, hres, hc]

/-- `notify_background_done` on a successful reply, by the result code `r` it
reads: the permission it ends with, the kill on FORBID, the store call, and
the record it updates. -/
theorem notify_background_done_some (ddata : DoneData) (results : VarDict)
    (result_uninit : Nat) (set_ok : Bool) (w : World) (r : Nat)
    (hr : (g_variant_lookup_uint32 results "result").getD result_uninit = r) :
    notify_background_done ddata (some results) result_uninit set_ok w =
      match g_hash_table_lookup w.applications ddata.id with
      | some d =>
        { set_permission set_ok ddata.app_id
            (if r = ALLOW then (if ddata.perm = .ASK then .ASK else .YES)
              else if r = FORBID then (if ddata.perm = .ASK then .ASK else .NO)
              else ddata.perm)
            (if r = FORBID then kill_instance ddata.id w else w) with
          applications := (g_hash_table_insert w.applications ddata.id
            { d with
              handle := none,
              permission :=
                (if r = ALLOW then (if ddata.perm = .ASK then .ASK else .YES)
                  else if r = FORBID then (if ddata.perm = .ASK then .ASK else .NO)
                  else ddata.perm) }) }
      | none =>
        set_permission set_ok ddata.app_id
          (if r = ALLOW then (if ddata.perm = .ASK then .ASK else .YES)
            else if r = FORBID then (if ddata.perm = .ASK then .ASK else .NO)
            else ddata.perm)
          (if r = FORBID then kill_instance ddata.id w else w) := by
  rw [notify_background_done_canon ddata results result_uninit set_ok w r hr]
  have hne : ¬ (ALLOW = FORBID) := by decide
  have hc : g_variant_lookup_uint32 [("result", GVariant.uint32 r)] "result" = some r := by
    simp [g_variant_lookup_uint32, g_variant_lookup_value, List.lookup_cons]
  by_cases h1 : r = ALLOW
  · subst h1
    by_cases h3 : ddata.perm = .ASK <;> cases hl : g_hash_table_lookup w.applications ddata.id <;>
      simp [notify_background_done, hc, hne, h3, hl, (set_permission_fields _ _ _ _).1]
  · by_cases h2 : r = FORBID
    · subst h2
      by_cases h3 : ddata.perm = .ASK <;>
        cases hl : g_hash_table_lookup w.applications ddata.id <;>
        simp [notify_background_done, hc, h1, h3, hl, (set_permission_fields _ _ _ _).1,
          (kill_instance_fields _ _).1]
    · cases hl : g_hash_table_lookup w.applications ddata.id <;>
        simp [notify_background_done, hc, h1, h2, hl, (set_permission_fields _ _ _ _).1]

theorem set_permission_kill_fields (set_ok : Bool) (app_id id : String) (p : Permission)
    (c : Prop) [Decidable c] (w : World) :
    (set_permission set_ok app_id p (if c then kill_instance id w else w)).applications =
      w.applications ∧
    (set_permission set_ok app_id p (if c then kill_instance id w else w)).stamp = w.stamp ∧
    (set_permission set_ok app_id p (if c then kill_instance id w else w)).count = w.count ∧
    (set_permission set_ok app_id p (if c then kill_instance id w else w)).pending =
      w.pending := by
  have h1 := set_permission_fields set_ok app_id p (if c then kill_instance id w else w)
  have h2 := kill_instance_fields id w
  by_cases hc : c
  · simp only [hc, if_true] at h1 ⊢
    exact ⟨h1.1.trans h2.1, h1.2.1.trans h2.2.1, h1.2.2.1.trans h2.2.2.2.1,
      h1.2.2.2.trans h2.2.2.2.2⟩
  · simp only [hc, if_false] at h1 ⊢
    exact h1

/-- `notify_background_done` changes at most the record under `ddata.id`, and
of it only the handle and the permission. -/
theorem notify_background_done_shape (ddata : DoneData) (finish_reply : Option VarDict)
    (result_uninit : Nat) (set_ok : Bool) (w : World) :
    (notify_background_done ddata finish_reply result_uninit set_ok w).stamp = w.stamp ∧
    ((notify_background_done ddata finish_reply result_uninit set_ok w).applications =
        w.applications ∨
      ∃ d p, g_hash_table_lookup w.applications ddata.id = some d ∧
        (notify_background_done ddata finish_reply result_uninit set_ok w).applications =
          g_hash_table_insert w.applications ddata.id
            { d with handle := none, permission := p }) := by
  cases finish_reply with
  | none => simp [notify_background_done]
  | some results =>
    rw [notify_background_done_some ddata results result_uninit set_ok w _ rfl]
    cases hl : g_hash_table_lookup w.applications ddata.id with
    | none =>
      exact ⟨(set_permission_kill_fields _ _ _ _ _ _).2.1,
        Or.inl (set_permission_kill_fields _ _ _ _ _ _).1⟩
    | some d =>
      exact ⟨(set_permission_kill_fields _ _ _ _ _ _).2.1, Or.inr ⟨d, _, rfl, rfl⟩⟩

theorem notify_background_done_wf (ddata : DoneData) (finish_reply : Option VarDict)
    (result_uninit : Nat) (set_ok : Bool) (w : World) (hwf : w.wf) :
    (notify_background_done ddata finish_reply result_uninit set_ok w).wf := by
  obtain ⟨h1, h2⟩ := notify_background_done_shape ddata finish_reply result_uninit set_ok w
  unfold World.wf
  rw [h1]
  rcases h2 with h2 | ⟨d, p, hd, h2⟩
  · rw [h2]; exact hwf
  · rw [h2]
    refine ⟨g_hash_table_insert_nodup _ _ _ hwf.1, ?_⟩
    intro e he
    rcases g_hash_table_insert_mem _ _ _ e he with he1 | he1
    · exact hwf.2 e he1
    · rw [he1]
      exact hwf.2 (ddata.id, d) (lookup_mem _ _ _ hd)

theorem check_background_apps_wf (env : CycleEnv) (w w2 : World) (hwf : w.wf)
    (hok : check_background_apps env w = .ok w2) : w2.wf := by
  cases hst : cycle_app_states env w with
  | none =>
    rw [check_background_apps_eq, hst] at hok
    rw [← Except.ok.inj hok]
    cases env.app_state_reply <;> exact hwf
  | some app_states =>
    obtain ⟨w1, hl, hw2⟩ := cycle_ok env w w2 app_states hst hok
    have hf := cycle_start_fields env w
    have hwf1 := loop_wf _ _ _ _ _ _ hl (by rw [hf.1]; exact hwf.1)
      (by rw [hf.1]; intro e he; exact Nat.le_succ_of_le (hwf.2 e he))
    have hs1 := (loop_frame _ _ _ _ _ _ hl).2.1
    rw [hf.2.1] at hs1
    rw [hw2, remove_outdated_eq]
    refine ⟨?_, ?_⟩
    · exact List.Nodup.sublist (List.Sublist.map _ (List.filter_sublist _)) hwf1.1
    · intro e he
      have := hwf1.2 e (List.mem_filter.1 he).1
      simpa [hs1] using this

theorem step_wf (w w2 : World) (a : Action) (hwf : w.wf) (hok : step w a = .ok w2) :
    w2.wf := by
  cases a with
  | cycle env => exact check_background_apps_wf env w w2 hwf hok
  | done k finish_reply result_uninit set_ok =>
    simp only [step] at hok
    cases hp : w.pending[k]? with
    | none =>
      rw [hp] at hok
      rw [← Except.ok.inj hok]; exact hwf
    | some ddata =>
      rw [hp] at hok
      rw [← Except.ok.inj hok]
      exact notify_background_done_wf _ _ _ _ _ hwf
  | store_changed store =>
    simp only [step] at hok
    rw [← Except.ok.inj hok]; exact hwf

theorem run_wf (actions : List Action) (w w2 : World) (hwf : w.wf)
    (hok : run w actions = .ok w2) : w2.wf := by
  induction actions generalizing w with
  | nil =>
    simp only [run] at hok
    rw [← Except.ok.inj hok]; exact hwf
  | cons a rest ih =>
    simp only [run] at hok
    cases hs : step w a with
    | error e => rw [hs] at hok; exact absurd hok (by simp)
    | ok w1 =>
      rw [hs] at hok
      exact ih w1 (step_wf w w1 a hwf hs) hok

/-- Every reachable world has one entry per key and no stamp beyond the stamp
of the last cycle. -/
theorem reachable_wf (w : World) (h : reachable w) : w.wf := by
  obtain ⟨store, actions, hrun⟩ := h
  exact run_wf actions _ w (by simp [World.wf, World.start]) hrun

/-! ### The monitor: claims -/

theorem nodup_ids_split (pre post : List FlatpakInstance) (i : FlatpakInstance)
    (h : ((pre ++ i :: post).map (fun j => j.id)).Nodup) :
    (∀ j ∈ pre, j.id ≠ i.id) ∧ (∀ j ∈ post, j.id ≠ i.id) := by
  rw [List.map_append, List.map_cons, List.nodup_append] at h
  obtain ⟨_, h2, h3⟩ := h
  rw [List.nodup_cons] at h2
  refine ⟨?_, ?_⟩
  · intro j hj hji
    exact h3 (List.mem_map.2 ⟨j, hj, rfl⟩) (by rw [hji]; exact List.mem_cons_self _ _)
  · intro j hj hji
    exact h2.1 (List.mem_map.2 ⟨j, hj, hji⟩)

/-- In a cycle that is neither skipped nor aborted every enumerated instance
has its turn. -/
theorem turn_exists (env : CycleEnv) (w w2 : World) (app_states : List (String × AppState))
    (pre post : List FlatpakInstance) (i : FlatpakInstance)
    (hst : cycle_app_states env w = some app_states)
    (hok : check_background_apps env w = .ok w2)
    (hi : env.instances = pre ++ i :: post) :
    ∃ w1 wi, cycle_turn env w pre i w1 wi := by
  obtain ⟨w3, hl, _⟩ := cycle_ok env w w2 app_states hst hok
  rw [hi] at hl
  obtain ⟨w1, wi, h1, h2, _⟩ := loop_append _ _ _ _ _ _ _ _ hl
  refine ⟨w1, wi, app_states, post, hst, hi, ?_, ?_⟩
  · rw [(cycle_start_fields env w).2.1]; exact h1
  · rw [(cycle_start_fields env w).2.1]; exact h2

/-- A turn within a cycle that completes: the record of the instance is, when
the turn starts, the one the cycle started with, and the cleanup acts on the
record the turn leaves. -/
theorem turn_in_cycle (env : CycleEnv) (w w2 : World) (pre : List FlatpakInstance)
    (i : FlatpakInstance) (w1 wi : World)
    (hok : check_background_apps env w = .ok w2)
    (hnd : (env.instances.map (fun j => j.id)).Nodup)
    (ht : cycle_turn env w pre i w1 wi) :
    g_hash_table_lookup w1.applications i.id = g_hash_table_lookup w.applications i.id ∧
    w1.stamp = w.stamp + 1 ∧
    ∃ w3, w2 = remove_outdated_instances (w.stamp + 1) w3 ∧
      g_hash_table_lookup w3.applications i.id = g_hash_table_lookup wi.applications i.id ∧
      (∃ c, w3.log = w.log ++ c) ∧
      (w.wf → (w3.applications.map (fun e => e.1)).Nodup ∧
        ∀ e ∈ w3.applications, e.2.stamp ≤ w.stamp + 1) := by
  obtain ⟨app_states, post, hst, hi, h1, h2⟩ := ht
  have hf := cycle_start_fields env w
  rw [hf.2.1] at h1 h2
  obtain ⟨w3, hl, hw2⟩ := cycle_ok env w w2 app_states hst hok
  have hl0 := hl
  rw [hi] at hl
  obtain ⟨w1b, wib, g1, g2, g3⟩ := loop_append _ _ _ _ _ _ _ _ hl
  rw [h1] at g1
  have e1 : w1b = w1 := (Except.ok.inj g1).symm
  subst e1
  rw [h2] at g2
  have e2 : wib = wi := (Except.ok.inj g2).symm
  subst e2
  rw [hi] at hnd
  obtain ⟨n1, n2⟩ := nodup_ids_split pre post i hnd
  refine ⟨?_, ?_, w3, hw2, ?_, ?_, ?_⟩
  · rw [loop_lookup_other _ _ _ _ _ _ i.id h1 (fun j hj _ => n1 j hj), hf.1]
  · rw [(loop_frame _ _ _ _ _ _ h1).2.1, hf.2.1]
  · exact loop_lookup_other _ _ _ _ _ _ i.id g3 (fun j hj _ => n2 j hj)
  · obtain ⟨c, hc⟩ := (loop_frame _ _ _ _ _ _ hl0).2.2
    exact ⟨_, by rw [hc, hf.2.2.2.2.2, List.append_assoc]⟩
  · intro hwf
    exact loop_wf _ _ _ _ _ _ hl0 (by rw [hf.1]; exact hwf.1)
      (by rw [hf.1]; intro e he; exact Nat.le_succ_of_le (hwf.2 e he))

theorem lookup_remove_outdated_keep (stamp : Nat) (w : World) (k : String) (d : InstanceData)
    (h : g_hash_table_lookup w.applications k = some d) (hs : ¬ d.stamp < stamp) :
    g_hash_table_lookup (remove_outdated_instances stamp w).applications k = some d := by
  rw [remove_outdated_eq]
  exact lookup_filter_keep _ _ _ _ h (by simpa using hs)

theorem lookup_remove_outdated_drop (stamp : Nat) (w : World) (k : String) (d : InstanceData)
    (hnd : (w.applications.map (fun e => e.1)).Nodup)
    (h : g_hash_table_lookup w.applications k = some d) (hs : d.stamp < stamp) :
    g_hash_table_lookup (remove_outdated_instances stamp w).applications k = none := by
  rw [remove_outdated_eq]
  exact lookup_filter_drop _ _ _ _ hnd h (by simpa using hs)

theorem lookup_remove_outdated_none (stamp : Nat) (w : World) (k : String)
    (h : g_hash_table_lookup w.applications k = none) :
    g_hash_table_lookup (remove_outdated_instances stamp w).applications k = none := by
  rw [remove_outdated_eq]
  exact lookup_filter_none _ _ _ h

/-- The turn of a running instance in a cycle that completes either makes a
kill call, and the record is gone after the cleanup, or makes none, and the
record is kept with the stamp of the cycle. -/
theorem turn_record (env : CycleEnv) (w w2 : World) (pre : List FlatpakInstance)
    (i : FlatpakInstance) (w1 wi : World)
    (hwf : w.wf)
    (hok : check_background_apps env w = .ok w2)
    (hnd : (env.instances.map (fun j => j.id)).Nodup)
    (hrun : i.is_running = true)
    (ht : cycle_turn env w pre i w1 wi) :
    ((∃ e ∈ calls_after w1 wi, e.is_kill = true) ∧
      g_hash_table_lookup w2.applications i.id = none) ∨
    ((∀ e ∈ calls_after w1 wi, e.is_kill = false) ∧
      ∃ r, g_hash_table_lookup w2.applications i.id = some r ∧ r.stamp = w.stamp + 1) := by
  obtain ⟨_, _, w3, t3, t4, _, t5⟩ := turn_in_cycle env w w2 pre i w1 wi hok hnd ht
  obtain ⟨app_states, post, _, _, _, hb⟩ := ht
  rw [(cycle_start_fields env w).2.1] at hb
  have keep : ∀ r : InstanceData,
      wi.applications = g_hash_table_insert w1.applications i.id r →
      r.stamp = w.stamp + 1 →
      ∃ r, g_hash_table_lookup w2.applications i.id = some r ∧ r.stamp = w.stamp + 1 := by
    intro r hr hs
    refine ⟨r, ?_, hs⟩
    rw [t3]
    apply lookup_remove_outdated_keep
    · rw [t4, hr, g_hash_table_lookup_insert, if_pos rfl]
    · simp [hs]
  rcases body_cases _ _ _ _ _ _ hrun hb with
    ⟨_, h⟩ | ⟨d, _, _, h⟩ | ⟨d, _, _, _, _, h⟩ | ⟨d, _, _, _, _, _, h⟩
  · right
    exact ⟨by rw [h]; simp [calls_after], keep _ (by rw [h]) rfl⟩
  · right
    exact ⟨by rw [h]; simp [calls_after], keep _ (by rw [h]) (update_fields _ _ _ d).2.1⟩
  · left
    refine ⟨⟨.kill d.flatpak_instance.child_pid, by rw [h]; simp [calls_after], rfl⟩, ?_⟩
    rw [t3]
    apply lookup_remove_outdated_drop _ _ _ _ (t5 hwf).1
    · rw [t4, h]
      simp only []
      rw [g_hash_table_lookup_insert, if_pos rfl]
    · simp
  · right
    exact ⟨by rw [h]; simp [calls_after, Event.is_kill],
      keep _ (by rw [h]) (by simp [(update_fields _ _ _ d).2.1])⟩

/-- A record whose key is the id of no running enumerated instance is gone
after a cycle that completes. -/
theorem vanished_record (env : CycleEnv) (w w2 : World)
    (app_states : List (String × AppState)) (k : String)
    (hwf : w.wf)
    (hst : cycle_app_states env w = some app_states)
    (hok : check_background_apps env w = .ok w2)
    (hk : ∀ i ∈ env.instances, i.is_running = true → i.id ≠ k) :
    g_hash_table_lookup w2.applications k = none := by
  obtain ⟨w3, hl, hw2⟩ := cycle_ok env w w2 app_states hst hok
  have hf := cycle_start_fields env w
  have hlk := loop_lookup_other _ _ _ _ _ _ k hl hk
  rw [hf.1] at hlk
  have hwf3 := loop_wf _ _ _ _ _ _ hl (by rw [hf.1]; exact hwf.1)
    (by rw [hf.1]; intro e he; exact Nat.le_succ_of_le (hwf.2 e he))
  cases hd : g_hash_table_lookup w.applications k with
  | none =>
    rw [hw2]
    exact lookup_remove_outdated_none _ _ _ (hlk.trans hd)
  | some d =>
    have hds : d.stamp < w.stamp + 1 :=
      Nat.lt_succ_of_le (hwf.2 (k, d) (lookup_mem _ _ _ hd))
    rw [hw2]
    exact lookup_remove_outdated_drop _ _ _ _ hwf3.1 (hlk.trans hd) hds

theorem get_one_permission_stored (app_id : String) (st : Store) (x : Permission)
    (hx : x ≠ .UNSET) (h : get_one_permission app_id st = x) :
    ∃ d, st = some d ∧
      g_variant_lookup d app_id =
        some [if x = .ASK then "ask" else if x = .YES then "yes" else "no"] := by
  cases st with
  | none => rw [get_one_permission_none] at h; exact absurd h.symm hx
  | some d =>
    refine ⟨d, rfl, ?_⟩
    cases hl : g_variant_lookup d app_id with
    | none => rw [get_one_permission_absent _ _ hl] at h; exact absurd h.symm hx
    | some l =>
      match l, hl with
      | [], hl => rw [get_one_permission_length _ _ _ hl (by simp)] at h; exact absurd h.symm hx
      | _ :: _ :: _, hl =>
        rw [get_one_permission_length _ _ _ hl (by simp)] at h; exact absurd h.symm hx
      | [s], hl =>
        rw [get_one_permission_singleton _ _ _ hl] at h
        by_cases h1 : s = "yes"
        · subst h1; simp at h; subst h; simp
        · by_cases h2 : s = "no"
          · subst h2; simp at h; subst h; simp
          · by_cases h3 : s = "ask"
            · subst h3; simp at h; subst h; simp
            · simp [h1, h2, h3] at h; exact absurd h.symm hx

theorem body_abort_eq (stamp : Nat) (app_states : List (String × AppState))
    (perms : Option Perms) (w : World) (i : FlatpakInstance) (d : InstanceData)
    (hrun : i.is_running = true)
    (hfound : g_hash_table_lookup w.applications i.id = some d)
    (hst : get_one_app_state i.app app_states = BACKGROUND)
    (hp : get_one_permission i.app perms = .ASK ∨ get_one_permission i.app perms = .UNSET)
    (hn : d.permission = get_one_permission i.app perms → d.notified = false)
    (hh : d.handle ≠ none) :
    check_background_apps_body stamp app_states perms w i =
      .error { w with
        applications := (g_hash_table_insert w.applications i.id
          (d.update stamp BACKGROUND (get_one_permission i.app perms))),
        count := w.count + 1,
        pending := w.pending ++
          [{ app_id := d.flatpak_instance.app, id := d.flatpak_instance.id,
             perm := get_one_permission i.app perms }],
        log := w.log ++
          [.notify_background
            ("/org/freedesktop/portal/desktop/notify/background" ++ toString w.count)
            d.flatpak_instance.app (flatpak_instance_get_display_name d.flatpak_instance)] } := by
  by_cases hperm : d.permission = get_one_permission i.app perms
  · have hn2 := hn hperm
    rcases hp with hp | hp <;>
      simp_all [check_background_apps_body, InstanceData.update, send_notification,
        World.call, BACKGROUND]
  · rcases hp with hp | hp <;>
      simp_all [check_background_apps_body, InstanceData.update, send_notification,
        World.call, BACKGROUND]

/-- C11, as stated, fails.  Over an empty store the sample instance is
recorded, then notified, and the notification completes with FORBID: the
record now has permission NO and the notified flag set.  In the next cycle the
instance is still enumerated as running and in the background and the store
says "no", yet the cycle makes no kill call and the record is still in the
registry after the cleanup. -/
theorem notified_no_background_not_killed :
    ∃ w w2 d,
      run (World.start none) [.cycle sample_cycle, .cycle sample_cycle, sample_done_forbid] =
        .ok w ∧
      check_background_apps sample_cycle w = .ok w2 ∧
      sample_instance ∈ sample_cycle.instances ∧ sample_instance.is_running = true ∧
      g_hash_table_lookup w.applications sample_instance.id = some d ∧
      (d.permission, d.notified) = (Permission.NO, true) ∧
      get_one_permission sample_instance.app (cycle_perms sample_cycle w) = .NO ∧
      (cycle_app_states sample_cycle w).map (get_one_app_state sample_instance.app) =
        some BACKGROUND ∧
      (calls_after w w2).filter Event.is_kill = [] ∧
      (g_hash_table_lookup w2.applications sample_instance.id).isSome = true := by
  refine ⟨_, _, _, rfl, rfl, ?_, rfl, rfl, ?_, ?_, ?_, ?_, ?_⟩
  · decide
  · decide
  · decide
  · decide
  · decide
  · decide

/-- C11, amended: in a cycle that is neither skipped nor aborted, started in
a reachable world with distinct instance ids enumerated, take a running
instance that had a record before the cycle.  If after the update of its turn
the record has permission NO, state BACKGROUND and the notified flag false
(the cached permission was not NO, or the flag was not set), then the only call
of its turn is the kill of its process, no notification is sent, and its
record is absent from the registry after the cleanup. -/
theorem no_background_killed (env : CycleEnv) (w w2 : World)
    (app_states : List (String × AppState)) (pre post : List FlatpakInstance)
    (i : FlatpakInstance) (d : InstanceData)
    (hreach : reachable w)
    (hst : cycle_app_states env w = some app_states)
    (hok : check_background_apps env w = .ok w2)
    (hi : env.instances = pre ++ i :: post)
    (hnd : (env.instances.map (fun j => j.id)).Nodup)
    (hrun : i.is_running = true)
    (hrec : g_hash_table_lookup w.applications i.id = some d)
    (hperm : get_one_permission i.app (cycle_perms env w) = .NO)
    (hstate : get_one_app_state i.app app_states = BACKGROUND)
    (hnot : d.permission = .NO → d.notified = false) :
    (∃ w1 wi, cycle_turn env w pre i w1 wi ∧
      calls_after w1 wi = [.kill d.flatpak_instance.child_pid] ∧ wi.pending = w1.pending) ∧
    g_hash_table_lookup w2.applications i.id = none := by
  obtain ⟨w1, wi, ht⟩ := turn_exists env w w2 app_states pre post i hst hok hi
  obtain ⟨t1, t2, w3, t3, t4, _, t5⟩ := turn_in_cycle env w w2 pre i w1 wi hok hnd ht
  have ht0 := ht
  obtain ⟨as2, post2, hst2, _, _, hb⟩ := ht
  rw [hst] at hst2
  have e1 : as2 = app_states := (Option.some.inj hst2).symm
  subst e1
  rw [(cycle_start_fields env w).2.1] at hb
  rw [body_kill _ _ _ _ _ d hrun (t1.trans hrec) hstate hperm hnot,
    g_hash_table_insert_insert] at hb
  have hwi := (Except.ok.inj hb).symm
  refine ⟨⟨w1, wi, ht0, ?_, ?_⟩, ?_⟩
  · rw [hwi]
    simp [calls_after, (update_fields _ _ _ d).1]
  · rw [hwi]
  · rw [t3]
    apply lookup_remove_outdated_drop _ _ _ _ (t5 (reachable_wf w hreach)).1
    · rw [t4, hwi]
      simp only []
      rw [g_hash_table_lookup_insert, if_pos rfl]
    · simp

/-- C11, amended, at the sample instance seen once over a store that says
"no": the second cycle removes its record. -/
theorem no_background_killed_witness :
    (reachable (sample_seen_world ["no"]) ∧
      check_background_apps sample_cycle (sample_seen_world ["no"]) =
        .ok (outcome (check_background_apps sample_cycle (sample_seen_world ["no"]))) ∧
      g_hash_table_lookup (sample_seen_world ["no"]).applications sample_instance.id =
        some sample_seen_record_no) ∧
    g_hash_table_lookup
      (outcome (check_background_apps sample_cycle (sample_seen_world ["no"]))).applications
      sample_instance.id = none :=
  ⟨⟨⟨some [("org.example.App", ["no"])], [.cycle sample_cycle], rfl⟩, rfl, by decide⟩,
    (no_background_killed sample_cycle (sample_seen_world ["no"]) _ [("org.example.App", 0)]
      [] [] sample_instance sample_seen_record_no
      ⟨some [("org.example.App", ["no"])], [.cycle sample_cycle], rfl⟩ rfl rfl rfl
      (by decide) rfl (by decide) (by decide) (by decide) (by decide)).2⟩

/-- C12: grace period.  In a cycle that is neither skipped nor aborted, with
distinct instance ids enumerated, the turn of a running instance that had no
record when the cycle started makes no call at all (no kill, no notification)
and sends nothing, whatever its state and permission; after the cycle its
record exists, stamped by the cycle, with the notified flag false and no
handle. -/
theorem grace_period (env : CycleEnv) (w w2 : World) (app_states : List (String × AppState))
    (pre post : List FlatpakInstance) (i : FlatpakInstance)
    (hst : cycle_app_states env w = some app_states)
    (hok : check_background_apps env w = .ok w2)
    (hi : env.instances = pre ++ i :: post)
    (hnd : (env.instances.map (fun j => j.id)).Nodup)
    (hrun : i.is_running = true)
    (hnew : g_hash_table_lookup w.applications i.id = none) :
    (∃ w1 wi, cycle_turn env w pre i w1 wi ∧ calls_after w1 wi = [] ∧
      wi.pending = w1.pending) ∧
    g_hash_table_lookup w2.applications i.id = some
      { flatpak_instance := i, stamp := w.stamp + 1,
        state := get_one_app_state i.app app_states, handle := none, notified := false,
        permission := get_one_permission i.app (cycle_perms env w) } := by
  obtain ⟨w1, wi, ht⟩ := turn_exists env w w2 app_states pre post i hst hok hi
  obtain ⟨t1, t2, w3, t3, t4, _, _⟩ := turn_in_cycle env w w2 pre i w1 wi hok hnd ht
  have ht0 := ht
  obtain ⟨as2, post2, hst2, _, _, hb⟩ := ht
  rw [hst] at hst2
  have e1 : as2 = app_states := (Option.some.inj hst2).symm
  subst e1
  rw [(cycle_start_fields env w).2.1] at hb
  rw [body_new _ _ _ _ _ hrun (t1.trans hnew)] at hb
  have hwi := (Except.ok.inj hb).symm
  refine ⟨⟨w1, wi, ht0, ?_, ?_⟩, ?_⟩
  · rw [hwi]; simp [calls_after]
  · rw [hwi]
  · rw [t3]
    apply lookup_remove_outdated_keep
    · rw [t4, hwi]
      simp only []
      rw [g_hash_table_lookup_insert, if_pos rfl]
    · simp

/-- C12 at the sample instance, first seen in the background over an empty
store. -/
theorem grace_period_witness :
    (check_background_apps sample_cycle (World.start none) =
        .ok (outcome (check_background_apps sample_cycle (World.start none))) ∧
      g_hash_table_lookup (World.start none).applications sample_instance.id = none) ∧
    g_hash_table_lookup
      (outcome (check_background_apps sample_cycle (World.start none))).applications
      sample_instance.id =
      some { flatpak_instance := sample_instance, stamp := 1, state := BACKGROUND,
             handle := none, notified := false, permission := .UNSET } :=
  ⟨⟨rfl, rfl⟩,
    (grace_period sample_cycle (World.start none) _ [("org.example.App", 0)] [] []
      sample_instance rfl rfl rfl (by decide) rfl rfl).2⟩

theorem body_calls_no_close (stamp : Nat) (app_states : List (String × AppState))
    (perms : Option Perms) (w w2 : World) (i : FlatpakInstance)
    (hok : check_background_apps_body stamp app_states perms w i = .ok w2) :
    ∃ l, w2.log = w.log ++ l ∧ ∀ e ∈ l, e.is_close_notification = false := by
  cases hrun : i.is_running with
  | false =>
    rw [body_not_running stamp app_states perms w i hrun] at hok
    rw [← Except.ok.inj hok]
    exact ⟨[], by simp, by simp⟩
  | true =>
    rcases body_cases stamp app_states perms w w2 i hrun hok with
      ⟨_, h⟩ | ⟨d, _, _, h⟩ | ⟨d, _, _, _, _, h⟩ | ⟨d, _, _, _, _, _, h⟩
    · rw [h]; exact ⟨[], by simp, by simp⟩
    · rw [h]; exact ⟨[], by simp, by simp⟩
    · rw [h]; exact ⟨_, rfl, by simp [Event.is_close_notification]⟩
    · rw [h]; exact ⟨_, rfl, by simp [Event.is_close_notification]⟩

theorem loop_calls_no_close (stamp : Nat) (app_states : List (String × AppState))
    (perms : Option Perms) (l : List FlatpakInstance) (w w2 : World)
    (hok : check_background_apps_loop stamp app_states perms w l = .ok w2) :
    ∃ c, w2.log = w.log ++ c ∧ ∀ e ∈ c, e.is_close_notification = false := by
  induction l generalizing w with
  | nil =>
    rw [loop_nil] at hok
    rw [← Except.ok.inj hok]
    exact ⟨[], by simp, by simp⟩
  | cons j rest ih =>
    obtain ⟨wj, h1, h2⟩ := loop_cons stamp app_states perms w w2 j rest hok
    obtain ⟨c1, a1, a2⟩ := body_calls_no_close stamp app_states perms w wj j h1
    obtain ⟨c2, b1, b2⟩ := ih wj h2
    refine ⟨c1 ++ c2, by rw [b1, a1, List.append_assoc], ?_⟩
    intro e he
    rcases List.mem_append.1 he with h | h
    · exact a2 e h
    · exact b2 e h

/-- No cycle that completes makes a Close call. -/
theorem cycle_calls_no_close (env : CycleEnv) (w w2 : World)
    (hok : check_background_apps env w = .ok w2) :
    ∀ e ∈ calls_after w w2, e.is_close_notification = false := by
  cases hst : cycle_app_states env w with
  | none =>
    rw [check_background_apps_eq, hst] at hok
    rw [← Except.ok.inj hok]
    intro e he
    cases hr : env.app_state_reply <;>
      simp [calls_after, get_app_states, World.call, hr] at he <;>
      simp [he, Event.is_close_notification]
  | some app_states =>
    obtain ⟨w3, hl, hw2⟩ := cycle_ok env w w2 app_states hst hok
    obtain ⟨c, hc1, hc2⟩ := loop_calls_no_close _ _ _ _ _ _ hl
    rw [(cycle_start_fields env w).2.2.2.2.2] at hc1
    rw [hw2, remove_outdated_eq]
    intro e he
    simp only [calls_after, hc1, List.append_assoc, List.drop_left] at he
    rcases List.mem_append.1 he with h1 | h1
    · simp at h1
      rcases h1 with h1 | h1 <;> simp [h1, Event.is_close_notification]
    · exact hc2 e h1

/-- The part of the cleanup the code carries out: in a cycle that is neither
skipped nor aborted, started in a reachable world with distinct instance ids
enumerated, every record whose key is the id of no running enumerated instance
is absent from the registry after the cycle, and the record of every running
enumerated instance that the cycle does not kill is kept. -/
theorem vanished_records_removed (env : CycleEnv) (w w2 : World)
    (app_states : List (String × AppState))
    (hreach : reachable w)
    (hst : cycle_app_states env w = some app_states)
    (hok : check_background_apps env w = .ok w2)
    (hnd : (env.instances.map (fun j => j.id)).Nodup) :
    (∀ k, (∀ i ∈ env.instances, i.is_running = true → i.id ≠ k) →
      g_hash_table_lookup w2.applications k = none) ∧
    (∀ i ∈ env.instances, i.is_running = true → ¬ killed_in_cycle env w i →
      ∃ r, g_hash_table_lookup w2.applications i.id = some r) := by
  have hwf := reachable_wf w hreach
  refine ⟨fun k hk => vanished_record env w w2 app_states k hwf hst hok hk, ?_⟩
  intro i hi hrun hnk
  obtain ⟨pre, post, hsplit⟩ := List.append_of_mem hi
  obtain ⟨w1, wi, ht⟩ := turn_exists env w w2 app_states pre post i hst hok hsplit
  rcases turn_record env w w2 pre i w1 wi hwf hok hnd hrun ht with ⟨hk, _⟩ | ⟨_, r, hr, _⟩
  · exact absurd ⟨pre, w1, wi, ht, hk⟩ hnk
  · exact ⟨r, hr⟩

/-- C13: what the code does with the notification of a vanished instance.
The sample instance has been notified and its record holds the handle of the
notification in flight; in the next cycle it is no longer enumerated.  The
cycle completes and removes the record, but its only calls are the GetAppState
call and the permission lookup: no Close call is made for the handle. -/
theorem close_notification_sends_nothing :
    ∃ w2, check_background_apps sample_cycle_empty sample_notified_world = .ok w2 ∧
      g_hash_table_lookup sample_notified_world.applications "1234" =
        some sample_notified_record ∧
      sample_notified_record.handle =
        some "/org/freedesktop/portal/desktop/notify/background0" ∧
      g_hash_table_lookup w2.applications "1234" = none ∧
      calls_after sample_notified_world w2 =
        [.get_app_state, .permission_store_lookup PERMISSION_TABLE PERMISSION_ID] := by
  refine ⟨_, rfl, ?_, rfl, ?_, ?_⟩ <;> decide

/-- C14: notification completion, on success with result ALLOW or FORBID, for
the permission `ddata.perm` captured when the notification was sent.  The
resulting permission `p` is ASK when the captured one is ASK, else YES for
ALLOW and NO for FORBID; exactly one SetPermission call is made, writing `p`
for the application (and the store holds it when the call succeeds); ALLOW
makes no kill call; and for the record of the instance, its handle is cleared
and its cached permission set to `p`, and FORBID kills its process. -/
theorem notify_done_allow_forbid (ddata : DoneData) (results : VarDict) (result_uninit : Nat)
    (set_ok : Bool) (w : World) (r : Nat) (p : Permission) (s : String)
    (hr : g_variant_lookup_uint32 results "result" = some r)
    (hrv : r = ALLOW ∨ r = FORBID)
    (hp : p = if ddata.perm = .ASK then .ASK else if r = ALLOW then .YES else .NO)
    (hs : s = if p = .ASK then "ask" else if p = .YES then "yes" else "no") :
    (calls_after w (notify_background_done ddata (some results) result_uninit set_ok w)).filter
        Event.is_store_set =
      [.permission_store_set_permission PERMISSION_TABLE true PERMISSION_ID ddata.app_id [s]] ∧
    get_one_permission ddata.app_id (some [(ddata.app_id, [s])]) = p ∧
    (notify_background_done ddata (some results) result_uninit set_ok w).store =
      (if set_ok then w.store.set_permission ddata.app_id [s] else w.store) ∧
    (r = ALLOW →
      (calls_after w
        (notify_background_done ddata (some results) result_uninit set_ok w)).filter
          Event.is_kill = []) ∧
    (∀ d, g_hash_table_lookup w.applications ddata.id = some d →
      g_hash_table_lookup
          (notify_background_done ddata (some results) result_uninit set_ok w).applications
          ddata.id =
        some { d with handle := none, permission := p } ∧
      (r = FORBID →
        (calls_after w
          (notify_background_done ddata (some results) result_uninit set_ok w)).filter
            Event.is_kill = [.kill d.flatpak_instance.child_pid])) := by
  have hr2 : (g_variant_lookup_uint32 results "result").getD result_uninit = r := by
    rw [hr]; rfl
  rw [notify_background_done_some ddata results result_uninit set_ok w r hr2]
  have hne : ¬ (ALLOW = FORBID) := by decide
  have hne2 : ¬ (FORBID = ALLOW) := by decide
  rcases hrv with hrv | hrv <;> subst hrv <;> by_cases hask : ddata.perm = .ASK <;>
    subst hp <;> subst hs <;> cases hl : g_hash_table_lookup w.applications ddata.id <;>
    cases set_ok <;>
    simp [hask, hne, hne2, hl, set_permission, kill_instance, World.call, calls_after,
      Event.is_store_set, Event.is_kill, g_hash_table_lookup_insert, get_one_permission,
      g_variant_lookup, List.lookup_cons, List.filter_cons]

/-- C14 at ASK and FORBID: the store is written again with "ask". -/
theorem notify_done_allow_forbid_witness :
    g_variant_lookup_uint32 [("result", .uint32 0)] "result" = some FORBID ∧
    (calls_after (sample_seen_world ["ask"])
        (notify_background_done sample_done_data (some [("result", .uint32 0)]) 0 true
          (sample_seen_world ["ask"]))).filter Event.is_store_set =
      [.permission_store_set_permission PERMISSION_TABLE true PERMISSION_ID
        "org.example.App" ["ask"]] :=
  ⟨by decide,
    (notify_done_allow_forbid sample_done_data [("result", .uint32 0)] 0 true
      (sample_seen_world ["ask"]) FORBID .ASK "ask" (by decide) (Or.inr rfl) (by decide)
      (by decide)).1⟩

/-- C15, as stated, fails.  The sample instance is notified under ASK; the
store then gets "yes", which the next cycle adopts as the cached permission; the
notification then completes with the result code 2.  The store goes back from
"yes" to "ask" and the cached permission from YES to ASK. -/
theorem unexpected_result_changes_store :
    ∃ w w2,
      run (sample_world ["ask"])
        [.cycle sample_cycle, .cycle sample_cycle,
          .store_changed (some [("org.example.App", ["yes"])]), .cycle sample_cycle] = .ok w ∧
      w.pending[0]? = some { app_id := "org.example.App", id := "1234", perm := .ASK } ∧
      step w (.done 0 (some [("result", .uint32 2)]) 0 true) = .ok w2 ∧
      get_one_permission "org.example.App" w.store = .YES ∧
      get_one_permission "org.example.App" w2.store = .ASK ∧
      (g_hash_table_lookup w.applications "1234").map (fun d => d.permission) = some .YES ∧
      (g_hash_table_lookup w2.applications "1234").map (fun d => d.permission) =
        some .ASK := by
  refine ⟨_, _, rfl, ?_, rfl, ?_, ?_, ?_, ?_⟩ <;> decide

/-- C15, amended: on a successful completion whose result code is neither
FORBID nor ALLOW, `notify_background_done` makes no kill call and keeps the
captured permission `ddata.perm` as it is, but still runs its common tail: the
record of the instance gets its handle cleared and its cached permission set to
the captured one; with a captured UNSET no call is made and the store is left
alone; the entries of the store are as before whenever the stored permission of
the application still resolves to the captured one; and with a captured
permission other than UNSET its one call is the SetPermission call writing the
captured permission for the application, after which, when the call succeeds,
the store holds that array and resolves to the captured permission whatever it
held before. -/
theorem unexpected_result_resets (ddata : DoneData) (results : VarDict) (result_uninit : Nat)
    (set_ok : Bool) (w : World) (r : Nat)
    (hr : g_variant_lookup_uint32 results "result" = some r)
    (h1 : r ≠ ALLOW) (h2 : r ≠ FORBID) :
    (calls_after w (notify_background_done ddata (some results) result_uninit set_ok w)).filter
        Event.is_kill = [] ∧
    (∀ d, g_hash_table_lookup w.applications ddata.id = some d →
      g_hash_table_lookup
          (notify_background_done ddata (some results) result_uninit set_ok w).applications
          ddata.id =
        some { d with handle := none, permission := ddata.perm }) ∧
    (ddata.perm = .UNSET →
      (notify_background_done ddata (some results) result_uninit set_ok w).store = w.store ∧
      calls_after w (notify_background_done ddata (some results) result_uninit set_ok w) =
        []) ∧
    (get_one_permission ddata.app_id w.store = ddata.perm →
      ∀ a, g_variant_lookup
          ((notify_background_done ddata (some results) result_uninit set_ok w).store.getD [])
          a =
        g_variant_lookup (w.store.getD []) a) ∧
    (ddata.perm ≠ .UNSET →
      calls_after w (notify_background_done ddata (some results) result_uninit set_ok w) =
        [.permission_store_set_permission PERMISSION_TABLE true PERMISSION_ID ddata.app_id
          [if ddata.perm = .ASK then "ask" else if ddata.perm = .YES then "yes" else "no"]] ∧
      (notify_background_done ddata (some results) result_uninit set_ok w).store =
        (if set_ok then
          w.store.set_permission ddata.app_id
            [if ddata.perm = .ASK then "ask" else if ddata.perm = .YES then "yes" else "no"]
        else w.store) ∧
      (set_ok = true →
        get_one_permission ddata.app_id
          (notify_background_done ddata (some results) result_uninit set_ok w).store =
          ddata.perm)) := by
  have hr2 : (g_variant_lookup_uint32 results "result").getD result_uninit = r := by
    rw [hr]; rfl
  rw [notify_background_done_some ddata results result_uninit set_ok w r hr2]
  refine ⟨?_, ?_, ?_, ?_, ?_⟩
  · cases hl : g_hash_table_lookup w.applications ddata.id <;> cases set_ok <;>
      cases hperm : ddata.perm <;>
      simp [h1, h2, hl, hperm, set_permission, World.call, calls_after, Event.is_kill]
  · intro d hl
    simp [h1, h2, hl, g_hash_table_lookup_insert]
  · intro hu
    cases hl : g_hash_table_lookup w.applications ddata.id <;>
      simp [h1, h2, hl, hu, set_permission, calls_after]
  · intro hst a
    by_cases hu : ddata.perm = .UNSET
    · cases hl : g_hash_table_lookup w.applications ddata.id <;>
        simp [h1, h2, hl, hu, set_permission]
    · obtain ⟨d0, hd0, hlk⟩ := get_one_permission_stored ddata.app_id w.store ddata.perm hu hst
      have hstore : ∀ p : String, g_variant_lookup d0 ddata.app_id = some [p] →
          g_variant_lookup ((w.store.set_permission ddata.app_id [p]).getD []) a =
            g_variant_lookup (w.store.getD []) a := by
        intro p hp
        by_cases ha : a = ddata.app_id
        · subst ha
          rw [hd0]
          simp [Store.set_permission, g_variant_lookup, List.lookup_cons]
          exact hp.symm
        · exact store_set_permission_lookup_other w.store ddata.app_id a [p] ha
      cases hl : g_hash_table_lookup w.applications ddata.id <;> cases set_ok <;>
        cases hperm : ddata.perm <;>
        simp_all [set_permission, World.call]
  · intro hu
    cases hl : g_hash_table_lookup w.applications ddata.id <;> cases set_ok <;>
      cases hperm : ddata.perm <;>
      simp_all [set_permission, World.call, calls_after, get_one_permission,
        Store.set_permission, g_variant_lookup, List.lookup_cons]

/-- C15, amended, at the result code 2 with ASK captured: no kill call, and
the one call made writes "ask". -/
theorem unexpected_result_resets_witness :
    (g_variant_lookup_uint32 [("result", .uint32 2)] "result" = some 2 ∧
      sample_done_data.perm ≠ .UNSET) ∧
    (calls_after (sample_seen_world ["ask"])
        (notify_background_done sample_done_data (some [("result", .uint32 2)]) 0 true
          (sample_seen_world ["ask"]))).filter Event.is_kill = [] ∧
    calls_after (sample_seen_world ["ask"])
        (notify_background_done sample_done_data (some [("result", .uint32 2)]) 0 true
          (sample_seen_world ["ask"])) =
      [.permission_store_set_permission PERMISSION_TABLE true PERMISSION_ID
        sample_done_data.app_id
        [if sample_done_data.perm = .ASK then "ask"
          else if sample_done_data.perm = .YES then "yes" else "no"]] :=
  ⟨⟨by decide, by decide⟩,
    (unexpected_result_resets sample_done_data [("result", .uint32 2)] 0 true
      (sample_seen_world ["ask"]) 2 (by decide) (by decide) (by decide)).1,
    ((unexpected_result_resets sample_done_data [("result", .uint32 2)] 0 true
      (sample_seen_world ["ask"]) 2 (by decide) (by decide) (by decide)).2.2.2.2
        (by decide)).1⟩

/-- C16: when the GetAppState call fails the cycle is skipped:
`check_background_apps` returns with the registry, the stamp, the store, the
counter and the calls in flight as they were, and its only call is the failed
GetAppState call itself: no kill, no notification, no close. -/
theorem failed_app_states_skips_cycle (env : CycleEnv) (w : World)
    (h : env.app_state_reply = none) :
    ∃ w2, check_background_apps env w = .ok w2 ∧ w2.applications = w.applications ∧
      w2.stamp = w.stamp ∧ w2.store = w.store ∧ w2.count = w.count ∧
      w2.pending = w.pending ∧ calls_after w w2 = [.get_app_state] :=
  ⟨_, cycle_skipped env w h, rfl, rfl, rfl, rfl, rfl, by simp [calls_after, World.call]⟩

/-- C16 at the notified sample world. -/
theorem failed_app_states_skips_cycle_witness :
    sample_cycle_failed.app_state_reply = none ∧
    ∃ w2, check_background_apps sample_cycle_failed sample_notified_world = .ok w2 ∧
      w2.applications = sample_notified_world.applications ∧
      w2.stamp = sample_notified_world.stamp ∧ w2.store = sample_notified_world.store ∧
      w2.count = sample_notified_world.count ∧
      w2.pending = sample_notified_world.pending ∧
      calls_after sample_notified_world w2 = [.get_app_state] :=
  ⟨rfl, failed_app_states_skips_cycle sample_cycle_failed sample_notified_world rfl⟩

/-- C18: in every turn of the loop of a cycle, aborted or not: a kill call is
made only if the record has permission NO and state BACKGROUND; a notification
is sent only if the record has permission ASK or UNSET, state BACKGROUND and,
after the update, the notified flag false; with state RUNNING or ACTIVE, or
permission YES, the turn makes no call; and the permission and state meant are
those of the record of the instance after the turn. -/
theorem turn_policy (stamp : Nat) (app_states : List (String × AppState))
    (perms : Option Perms) (w : World) (i : FlatpakInstance) :
    ((∃ e ∈ calls_after w (outcome (check_background_apps_body stamp app_states perms w i)),
        e.is_kill = true) →
      get_one_permission i.app perms = .NO ∧
      get_one_app_state i.app app_states = BACKGROUND) ∧
    ((∃ e ∈ calls_after w (outcome (check_background_apps_body stamp app_states perms w i)),
        e.is_notify_background = true) →
      (get_one_permission i.app perms = .ASK ∨ get_one_permission i.app perms = .UNSET) ∧
      get_one_app_state i.app app_states = BACKGROUND ∧
      ∃ d, g_hash_table_lookup w.applications i.id = some d ∧
        (d.update stamp (get_one_app_state i.app app_states)
          (get_one_permission i.app perms)).notified = false) ∧
    ((get_one_app_state i.app app_states = RUNNING ∨
        get_one_app_state i.app app_states = ACTIVE ∨
        get_one_permission i.app perms = .YES) →
      calls_after w (outcome (check_background_apps_body stamp app_states perms w i)) = []) ∧
    (i.is_running = true →
      ∃ d2, g_hash_table_lookup
          (outcome (check_background_apps_body stamp app_states perms w i)).applications
          i.id = some d2 ∧
        d2.permission = get_one_permission i.app perms ∧
        d2.state = get_one_app_state i.app app_states) := by
  have hR : ¬ (BACKGROUND = RUNNING) := by decide
  have hA : ¬ (BACKGROUND = ACTIVE) := by decide
  cases hrun : i.is_running with
  | false =>
    rw [body_not_running _ _ _ _ _ hrun]
    simp [outcome, calls_after]
  | true =>
    cases hfound : g_hash_table_lookup w.applications i.id with
    | none =>
      rw [body_new _ _ _ _ _ hrun hfound]
      simp [outcome, calls_after, g_hash_table_lookup_insert]
    | some d =>
      have hu := update_fields stamp (get_one_app_state i.app app_states)
        (get_one_permission i.app perms) d
      by_cases hskip : get_one_app_state i.app app_states ≠ BACKGROUND ∨
          (d.permission = get_one_permission i.app perms ∧ d.notified = true) ∨
          get_one_permission i.app perms = .YES
      · rw [body_skip _ _ _ _ _ d hrun hfound hskip]
        simp [outcome, calls_after, g_hash_table_lookup_insert, hu.2.2.1, hu.2.2.2.2.1]
      · have hst : get_one_app_state i.app app_states = BACKGROUND := by
          by_contra hc; exact hskip (Or.inl hc)
        have hn : d.permission = get_one_permission i.app perms → d.notified = false := by
          intro h1
          cases h2 : d.notified
          · rfl
          · exact absurd (Or.inr (Or.inl ⟨h1, h2⟩)) hskip
        have hny : ¬ get_one_permission i.app perms = .YES :=
          fun hc => hskip (Or.inr (Or.inr hc))
        have hnot : (d.update stamp (get_one_app_state i.app app_states)
            (get_one_permission i.app perms)).notified = false := by
          rw [hu.2.2.2.2.2]
          by_cases h1 : d.permission = get_one_permission i.app perms
          · simp [hn h1]
          · simp [h1]
        rw [hst] at hu hnot
        rcases hp : get_one_permission i.app perms with _ | _ | _ | _
        · rw [hp] at hn hu hnot
          cases hh : d.handle with
          | none =>
            rw [body_notify _ _ _ _ _ d hrun hfound hst (Or.inr hp) (by rw [hp]; exact hn) hh,
              g_hash_table_insert_insert, hp]
            simp [outcome, calls_after, g_hash_table_lookup_insert, hst, hR, hA,
              Event.is_kill, Event.is_notify_background, hu.2.2.1, hu.2.2.2.2.1, hnot]
          | some h =>
            rw [body_abort_eq _ _ _ _ _ d hrun hfound hst (Or.inr hp) (by rw [hp]; exact hn)
              (by rw [hh]; simp), hp]
            simp [outcome, calls_after, g_hash_table_lookup_insert, hst, hR, hA,
              Event.is_kill, Event.is_notify_background, hu.2.2.1, hu.2.2.2.2.1, hnot]
        · rw [hp] at hn hu
          rw [body_kill _ _ _ _ _ d hrun hfound hst hp hn, g_hash_table_insert_insert]
          simp [outcome, calls_after, g_hash_table_lookup_insert, hst, hR, hA,
            Event.is_kill, Event.is_notify_background, hu.2.2.1, hu.2.2.2.2.1]
        · exact absurd hp hny
        · rw [hp] at hn hu hnot
          cases hh : d.handle with
          | none =>
            rw [body_notify _ _ _ _ _ d hrun hfound hst (Or.inl hp) (by rw [hp]; exact hn) hh,
              g_hash_table_insert_insert, hp]
            simp [outcome, calls_after, g_hash_table_lookup_insert, hst, hR, hA,
              Event.is_kill, Event.is_notify_background, hu.2.2.1, hu.2.2.2.2.1, hnot]
          | some h =>
            rw [body_abort_eq _ _ _ _ _ d hrun hfound hst (Or.inl hp) (by rw [hp]; exact hn)
              (by rw [hh]; simp), hp]
            simp [outcome, calls_after, g_hash_table_lookup_insert, hst, hR, hA,
              Event.is_kill, Event.is_notify_background, hu.2.2.1, hu.2.2.2.2.1, hnot]

/-- C18 at the notified sample instance reported RUNNING: no call. -/
theorem turn_policy_witness :
    get_one_app_state sample_instance.app [("org.example.App", RUNNING)] = RUNNING ∧
    calls_after sample_notified_world
      (outcome (check_background_apps_body 3 [("org.example.App", RUNNING)] none
        sample_notified_world sample_instance)) = [] :=
  ⟨by decide,
    (turn_policy 3 [("org.example.App", RUNNING)] none sample_notified_world
      sample_instance).2.2.1 (Or.inl (by decide))⟩

/-- C19, as stated, fails.  Over a store that says "ask" the sample instance
is recorded, then notified, and the notification completes with ALLOW; a cycle
sees it RUNNING, the next one in the BACKGROUND again.  The permission is ASK
throughout, and that last cycle sends no notification. -/
theorem ask_not_notified_again :
    ∃ w w2,
      run (sample_world ["ask"])
        [.cycle sample_cycle, .cycle sample_cycle, sample_done_allow,
          .cycle sample_cycle_running] = .ok w ∧
      check_background_apps sample_cycle w = .ok w2 ∧
      (w.log.filter Event.is_notify_background).length = 1 ∧
      w.pending = [] ∧
      get_one_permission "org.example.App" w.store = .ASK ∧
      (g_hash_table_lookup w.applications "1234").map
          (fun d => (d.permission, d.state, d.handle)) = some (.ASK, RUNNING, none) ∧
      (g_hash_table_lookup w2.applications "1234").map
          (fun d => (d.permission, d.state)) = some (.ASK, BACKGROUND) ∧
      (calls_after w w2).filter Event.is_notify_background = [] := by
  refine ⟨_, _, rfl, rfl, ?_, ?_, ?_, ?_, ?_, ?_⟩ <;> decide

/-- C19, amended: once a notification has been sent for an instance its
notified flag is set, and while the permission a cycle computes equals the
cached one the turn of the instance only stamps the record and sets its state:
it makes no call and sends no notification, whatever the state was before and
is now.  The completion of a notification leaves the notified flag of every
record as it is. -/
theorem notified_once (stamp : Nat) (app_states : List (String × AppState))
    (perms : Option Perms) (w : World) (i : FlatpakInstance) (d : InstanceData)
    (hrun : i.is_running = true)
    (hfound : g_hash_table_lookup w.applications i.id = some d)
    (hn : d.notified = true)
    (hp : get_one_permission i.app perms = d.permission) :
    check_background_apps_body stamp app_states perms w i =
      .ok { w with applications := (g_hash_table_insert w.applications i.id
        { d with stamp := stamp, state := get_one_app_state i.app app_states }) } ∧
    ∀ (ddata : DoneData) (finish_reply : Option VarDict) (result_uninit : Nat)
      (set_ok : Bool) (k : String) (d0 : InstanceData),
      g_hash_table_lookup w.applications k = some d0 →
      ∃ d2, g_hash_table_lookup
          (notify_background_done ddata finish_reply result_uninit set_ok w).applications k =
          some d2 ∧ d2.notified = d0.notified := by
  refine ⟨?_, ?_⟩
  · rw [body_skip _ _ _ _ _ d hrun hfound (Or.inr (Or.inl ⟨hp.symm, hn⟩))]
    simp [InstanceData.update, hp]
  · intro ddata finish_reply result_uninit set_ok k d0 hk
    rcases (notify_background_done_shape ddata finish_reply result_uninit set_ok w).2 with
      h | ⟨d1, p, hd1, h⟩
    · rw [h]; exact ⟨d0, hk, rfl⟩
    · rw [h, g_hash_table_lookup_insert]
      by_cases hkk : k = ddata.id
      · subst hkk
        rw [hk] at hd1
        have e1 : d1 = d0 := (Option.some.inj hd1).symm
        subst e1
        simp
      · simp [hkk, hk]

/-- C19, amended, at the notified sample instance seen in the background
again. -/
theorem notified_once_witness :
    (g_hash_table_lookup sample_notified_world.applications sample_instance.id =
        some sample_notified_record ∧
      get_one_permission sample_instance.app none = sample_notified_record.permission) ∧
    check_background_apps_body 3 [("org.example.App", BACKGROUND)] none
        sample_notified_world sample_instance =
      .ok { sample_notified_world with
        applications := (g_hash_table_insert sample_notified_world.applications
          sample_instance.id
          { sample_notified_record with
            stamp := 3,
            state := get_one_app_state sample_instance.app
              [("org.example.App", BACKGROUND)] }) } :=
  ⟨⟨by decide, by decide⟩,
    (notified_once 3 [("org.example.App", BACKGROUND)] none sample_notified_world
      sample_instance sample_notified_record rfl (by decide) rfl (by decide)).1⟩

/-- C20: after a cycle that is neither skipped nor aborted, started in a
reachable world with distinct instance ids enumerated, the stamp is one more
than before, every record in the registry carries that stamp, and the keys of
the registry are exactly the ids of the running enumerated instances the cycle
did not kill; a skipped cycle, a completion and a change of the store leave
the stamp as it is. -/
theorem registry_after_cycle (env : CycleEnv) (w w2 : World)
    (app_states : List (String × AppState))
    (hreach : reachable w)
    (hst : cycle_app_states env w = some app_states)
    (hok : check_background_apps env w = .ok w2)
    (hnd : (env.instances.map (fun j => j.id)).Nodup) :
    w2.stamp = w.stamp + 1 ∧
    (∀ e ∈ w2.applications, e.2.stamp = w2.stamp) ∧
    (∀ k, (g_hash_table_lookup w2.applications k).isSome = true ↔
      ∃ i ∈ env.instances, i.is_running = true ∧ i.id = k ∧ ¬ killed_in_cycle env w i) ∧
    (∀ (u u2 : World) (a : Action), step u a = .ok u2 →
      (∀ env2, a = .cycle env2 → env2.app_state_reply = none) → u2.stamp = u.stamp) := by
  have hwf := reachable_wf w hreach
  obtain ⟨w3, hl, hw2⟩ := cycle_ok env w w2 app_states hst hok
  have hf := cycle_start_fields env w
  have hs3 : w3.stamp = w.stamp + 1 := by
    rw [(loop_frame _ _ _ _ _ _ hl).2.1, hf.2.1]
  have hwf3 := loop_wf _ _ _ _ _ _ hl (by rw [hf.1]; exact hwf.1)
    (by rw [hf.1]; intro e he; exact Nat.le_succ_of_le (hwf.2 e he))
  have hs2 : w2.stamp = w.stamp + 1 := by
    rw [hw2, remove_outdated_eq]; exact hs3
  refine ⟨hs2, ?_, ?_, ?_⟩
  · intro e he
    rw [hs2]
    rw [hw2, remove_outdated_eq] at he
    obtain ⟨he1, he2⟩ := List.mem_filter.1 he
    have h1 := hwf3.2 e he1
    have h2 : ¬ e.2.stamp < w.stamp + 1 := by simpa using he2
    omega
  · intro k
    constructor
    · intro hsome
      by_cases hex : ∃ i ∈ env.instances, i.is_running = true ∧ i.id = k
      · obtain ⟨i, hi, hrun, hik⟩ := hex
        refine ⟨i, hi, hrun, hik, ?_⟩
        rintro ⟨pre, w1, wi, ht, hkill⟩
        rcases turn_record env w w2 pre i w1 wi hwf hok hnd hrun ht with
          ⟨_, hnone⟩ | ⟨hnk, _⟩
        · rw [hik] at hnone
          rw [hnone] at hsome
          simp at hsome
        · obtain ⟨e, he, hek⟩ := hkill
          rw [hnk e he] at hek
          simp at hek
      · have hk : ∀ i ∈ env.instances, i.is_running = true → i.id ≠ k :=
          fun i hi hrun hik => hex ⟨i, hi, hrun, hik⟩
        rw [vanished_record env w w2 app_states k hwf hst hok hk] at hsome
        simp at hsome
    · rintro ⟨i, hi, hrun, hik, hnk⟩
      obtain ⟨pre, post, hsplit⟩ := List.append_of_mem hi
      obtain ⟨w1, wi, ht⟩ := turn_exists env w w2 app_states pre post i hst hok hsplit
      rcases turn_record env w w2 pre i w1 wi hwf hok hnd hrun ht with
        ⟨hk, _⟩ | ⟨_, r, hr, _⟩
      · exact absurd ⟨pre, w1, wi, ht, hk⟩ hnk
      · rw [← hik, hr]; rfl
  · intro u u2 a hstep ha
    cases a with
    | cycle env2 =>
      have h0 := ha env2 rfl
      simp only [step] at hstep
      rw [cycle_skipped env2 u h0] at hstep
      rw [← Except.ok.inj hstep]; rfl
    | done k finish_reply result_uninit set_ok =>
      simp only [step] at hstep
      cases hp : u.pending[k]? with
      | none =>
        rw [hp] at hstep
        rw [← Except.ok.inj hstep]
      | some ddata =>
        rw [hp] at hstep
        rw [← Except.ok.inj hstep]
        exact (notify_background_done_shape _ _ _ _ _).1
    | store_changed store =>
      simp only [step] at hstep
      rw [← Except.ok.inj hstep]

/-- C20 at the first cycle of the monitor. -/
theorem registry_after_cycle_witness :
    (reachable (World.start none) ∧
      check_background_apps sample_cycle (World.start none) =
        .ok (outcome (check_background_apps sample_cycle (World.start none)))) ∧
    (outcome (check_background_apps sample_cycle (World.start none))).stamp =
      (World.start none).stamp + 1 :=
  ⟨⟨⟨none, [], rfl⟩, rfl⟩,
    (registry_after_cycle sample_cycle (World.start none) _ [("org.example.App", 0)]
      ⟨none, [], rfl⟩ rfl rfl (by decide)).1⟩

/-! ### Absent application states, the autostart call -/

theorem app_states_fold_lookup_none (apps : VarDict) (acc : List (String × AppState))
    (k : String) (hacc : g_hash_table_lookup acc k = none) (h : ∀ e ∈ apps, e.1 ≠ k) :
    g_hash_table_lookup
      (apps.foldl (fun t e => g_hash_table_insert t e.1 (g_variant_get_uint32 e.2)) acc) k =
      none := by
  induction apps generalizing acc with
  | nil => simpa using hacc
  | cons e rest ih =>
    rw [List.foldl_cons]
    apply ih
    · rw [g_hash_table_lookup_insert,
        if_neg (fun hk => h e (List.mem_cons_self _ _) hk.symm)]
      exact hacc
    · intro x hx
      exact h x (List.mem_cons_of_mem _ hx)

/-- C21: an application the state backend does not report counts as in the
BACKGROUND.  `get_one_app_state` returns BACKGROUND for every id that is not
in the table, and the table `get_app_states` builds has no entry for an
application the reply does not name.  So the turn of a running instance that
has a record with the notified flag false, and whose application the reply
does not name, makes exactly one call: the kill of its process when its
permission is NO, the notification when it is ASK or UNSET (after which the
process is aborted if the record still had a handle). -/
theorem absent_app_state_is_background (apps : VarDict) (w0 : World) (stamp : Nat)
    (perms : Option Perms) (w : World) (i : FlatpakInstance) (d : InstanceData)
    (habsent : ∀ e ∈ apps, e.1 ≠ i.app)
    (hrun : i.is_running = true)
    (hrec : g_hash_table_lookup w.applications i.id = some d)
    (hn : d.notified = false) :
    (∀ (t : List (String × AppState)) (k : String),
      g_hash_table_lookup t k = none → get_one_app_state k t = BACKGROUND) ∧
    ∃ app_states, (get_app_states (some apps) w0).1 = some app_states ∧
      g_hash_table_lookup app_states i.app = none ∧
      get_one_app_state i.app app_states = BACKGROUND ∧
      (get_one_permission i.app perms = .NO →
        calls_after w (outcome (check_background_apps_body stamp app_states perms w i)) =
          [.kill d.flatpak_instance.child_pid]) ∧
      ((get_one_permission i.app perms = .ASK ∨ get_one_permission i.app perms = .UNSET) →
        calls_after w (outcome (check_background_apps_body stamp app_states perms w i)) =
          [.notify_background
            ("/org/freedesktop/portal/desktop/notify/background" ++ toString w.count)
            d.flatpak_instance.app
            (flatpak_instance_get_display_name d.flatpak_instance)]) := by
  have hgen : ∀ (t : List (String × AppState)) (k : String),
      g_hash_table_lookup t k = none → get_one_app_state k t = BACKGROUND := by
    intro t k hk
    simp [get_one_app_state, hk, BACKGROUND]
  refine ⟨hgen, _, rfl, ?_, ?_, ?_, ?_⟩
  · exact app_states_fold_lookup_none apps [] i.app rfl habsent
  · exact hgen _ _ (app_states_fold_lookup_none apps [] i.app rfl habsent)
  · intro hp
    have hst := hgen _ _ (app_states_fold_lookup_none apps [] i.app rfl habsent)
    rw [body_kill _ _ _ _ _ d hrun hrec hst hp (fun _ => hn)]
    simp [outcome, calls_after, (update_fields _ _ _ d).1]
  · intro hp
    have hst := hgen _ _ (app_states_fold_lookup_none apps [] i.app rfl habsent)
    cases hh : d.handle with
    | none =>
      rw [body_notify _ _ _ _ _ d hrun hrec hst hp (fun _ => hn) hh]
      simp [outcome, calls_after]
    | some h =>
      rw [body_abort_eq _ _ _ _ _ d hrun hrec hst hp (fun _ => hn) (by rw [hh]; simp)]
      simp [outcome, calls_after]

/-- C21 at the sample instance, seen once over a store that says "no", with
a reply that names no application: it is killed. -/
theorem absent_app_state_is_background_witness :
    (g_hash_table_lookup (sample_seen_world ["no"]).applications sample_instance.id =
        some sample_seen_record_no ∧
      sample_seen_record_no.notified = false ∧
      get_one_permission sample_instance.app (some [("org.example.App", ["no"])]) = .NO) ∧
    ∃ app_states,
      (get_app_states (some sample_no_app_states) (sample_seen_world ["no"])).1 =
        some app_states ∧
      calls_after (sample_seen_world ["no"])
        (outcome (check_background_apps_body 2 app_states
          (some [("org.example.App", ["no"])]) (sample_seen_world ["no"])
          sample_instance)) = [.kill 4321] :=
  ⟨⟨by decide, rfl, by decide⟩,
    (absent_app_state_is_background sample_no_app_states (sample_seen_world ["no"]) 2
      (some [("org.example.App", ["no"])]) (sample_seen_world ["no"]) sample_instance
      sample_seen_record_no (by simp [sample_no_app_states]) rfl (by decide) rfl).2.elim
      (fun app_states h => ⟨app_states, h.1, h.2.2.2.1 (by decide)⟩)⟩

/-- C22: the worker makes exactly one EnableAutostart call for every request,
whatever the request asked for; its enable flag is true exactly when the
decision is allowed and the option "autostart" is true; and the activatable
bit of its flags is set exactly when the option "dbus-activatable" is true. -/
theorem enable_autostart_called_once (env : WorkerEnv) (request : Request) (w : World) :
    (calls_after w (handle_request_background_in_thread_func env request w).world).filter
        Event.is_enable_autostart =
      [.enable_autostart request.app_info.id
        ((handle_request_background_in_thread_func env request w).allowed &&
          (g_variant_lookup_boolean request.options "autostart").getD false)
        (env.rewrite_commandline request.app_info
          (g_variant_lookup_strv request.options "commandline"))
        (if (g_variant_lookup_boolean request.options "dbus-activatable").getD false then
          AUTOSTART_FLAGS_NONE ||| AUTOSTART_FLAGS_ACTIVATABLE
        else AUTOSTART_FLAGS_NONE)] ∧
    (((handle_request_background_in_thread_func env request w).allowed &&
        (g_variant_lookup_boolean request.options "autostart").getD false) = true ↔
      (handle_request_background_in_thread_func env request w).allowed = true ∧
      g_variant_lookup_boolean request.options "autostart" = some true) ∧
    ((if (g_variant_lookup_boolean request.options "dbus-activatable").getD false then
          AUTOSTART_FLAGS_NONE ||| AUTOSTART_FLAGS_ACTIVATABLE
        else AUTOSTART_FLAGS_NONE) &&& AUTOSTART_FLAGS_ACTIVATABLE =
        AUTOSTART_FLAGS_ACTIVATABLE ↔
      g_variant_lookup_boolean request.options "dbus-activatable" = some true) := by
  refine ⟨?_, ?_, ?_⟩
  · have h2 := get_permission_snd env.lookup_ok request.app_info.id w
    cases hexp : request.exported <;> cases hhost : request.app_info.is_host <;>
      rcases hp : (get_permission env.lookup_ok request.app_info.id w).1 <;>
      cases hset : env.set_ok <;> rcases hd : env.dialog_reply with _ | r <;>
      simp [handle_request_background_in_thread_func, hhost, hp, h2, hexp, hd, hset,
        World.call, request_unexport, calls_after, Event.is_enable_autostart, set_permission,
        List.filter_append] <;>
      by_cases hr : r = 0 <;>
      simp [hr, World.call, Event.is_enable_autostart, List.filter_append]
  · rcases ha : g_variant_lookup_boolean request.options "autostart" with _ | b
    · simp
    · cases b <;> simp
  · rcases ha : g_variant_lookup_boolean request.options "dbus-activatable" with _ | b
    · simp [AUTOSTART_FLAGS_NONE, AUTOSTART_FLAGS_ACTIVATABLE]
    · cases b <;> simp [AUTOSTART_FLAGS_NONE, AUTOSTART_FLAGS_ACTIVATABLE]

end Background
